import Mathlib

/-!
# camelhr/log: a global logging facade over zerolog

Shallow embedding of `logger.go` and `default.go`.

The package keeps two package-level variables (`globalLogger`, `initOnce`) and
hands every record to the `github.com/rs/zerolog` library.  The embedding makes
the whole mutable state explicit in one `World` value:

* the package variables and the heap of `*zlWrapper` values,
* the zerolog package variables the code assigns (`gLevel` through
  `SetGlobalLevel`, the three field names and the time format),
* the registration of the command-line flag `debug`,
* the standard library logger redirected by `stdlog.SetOutput`,
* the clock read by the timestamp hook and everything written to a sink.

The functions of zerolog the package calls are embedded from the source of the
library (`log.go`, `context.go`, `event.go`, `fields.go`, `globals.go`), each
under its own name in the namespace `zerolog`; `fmt.Sprintf` is a parameter.

A record is kept as the ordered list of its top-level `key: value` members, the
order in which zerolog appends them to the event buffer; JSON quoting and the
trailing newline are not modelled.  Mutexes are not modelled: every operation
is one atomic step of a sequential program.

An operation returns `Except Fault α × World`: the world after the call
together with either the returned value or the fault (a Go `panic`, or
`os.Exit`) that ended it.
-/

namespace Log

/-! ## Go values -/

/-- A Go value of type `any`, as far as `toFields` and the encoder tell values
apart.  `time layout sec` is the instant `sec` rendered with a layout other
than the Unix one; `other` stands for every remaining dynamic type. -/
inductive Value
  | nil
  | str (s : String)
  | int (i : Int)
  | bool (b : Bool)
  | time (layout : String) (sec : Int)
  | other (tag : Nat)
  deriving DecidableEq, Repr

/-- The ways a call can end other than by returning. -/
inductive Fault
  /-- The call `panic(msg)` made by the callback of a zerolog panic event. -/
  | panicMsg (msg : String)
  /-- The `runtime.TypeAssertionError` of a failed `x.(T)`. -/
  | typeAssertion
  /-- A method call through a nil pointer or nil interface. -/
  | nilDereference
  /-- The call `os.Exit(code)`. -/
  | exit (code : Nat)
  deriving DecidableEq, Repr

/-- An `io.Writer`.  `buffer id` is a writer supplied by the caller, such as a
`*bytes.Buffer`; two writers are the same sink exactly when they are equal. -/
inductive Writer
  | stderr
  | discard
  | buffer (id : Nat)
  deriving DecidableEq, Repr

/-- The encoded members of a JSON object, in the order they were appended. -/
abbrev Fields := List (String × Value)

/-- The assignment `m[k] = v` on a Go `map[string]any`, kept sorted by key.  Go
leaves the iteration order of a map unspecified and zerolog sorts the keys
(`sort.Strings`) before encoding them, so the sorted list is the only order the
program ever observes.  Go compares strings byte by byte, which on UTF-8 is the
lexicographic order of the runes. -/
def mapSet : Fields → String → Value → Fields
  | [], k, v => [(k, v)]
  | (k1, v1) :: m, k, v =>
    if k = k1 then (k, v) :: m
    else if k.data < k1.data then (k, v) :: (k1, v1) :: m
    else (k1, v1) :: mapSet m k v

/-! ## zerolog -/

namespace zerolog

/-- The zerolog type `Level`, an `int8`. -/
abbrev Level := Int

def DebugLevel : Level := 0
def InfoLevel : Level := 1
def WarnLevel : Level := 2
def ErrorLevel : Level := 3
def FatalLevel : Level := 4
def PanicLevel : Level := 5
def NoLevel : Level := 6
def Disabled : Level := 7
def TraceLevel : Level := -1

/-- The constant `zerolog.TimeFormatUnix`. -/
def TimeFormatUnix : String := ""

/-- The method `Level.String` (`log.go`), which is also the default
`LevelFieldMarshalFunc`. -/
def Level.String (l : Level) : String :=
  if l = TraceLevel then "trace"
  else if l = DebugLevel then "debug"
  else if l = InfoLevel then "info"
  else if l = WarnLevel then "warn"
  else if l = ErrorLevel then "error"
  else if l = FatalLevel then "fatal"
  else if l = PanicLevel then "panic"
  else if l = Disabled then "disabled"
  else if l = NoLevel then ""
  else toString l

/-- Simple case folding of one rune onto a representative: the ASCII capitals,
the Kelvin sign (U+212A, folds with `k`) and the long s (U+017F, folds with
`s`) go to the lowercase ASCII letter, every other rune is left alone. -/
def foldRune (c : Char) : Char :=
  if c.toNat = 0x212A then 'k'
  else if c.toNat = 0x017F then 's'
  else if c.isUpper then c.toLower
  else c

/-- The function `strings.EqualFold`, exact whenever one of the two strings is
ASCII, which is how `ParseLevel` calls it (against a level name). -/
def EqualFold (s t : String) : Bool :=
  s.toList.map foldRune = t.toList.map foldRune

/-- The function `strconv.Atoi`, without the range check of the machine `int`:
an optional sign followed by one or more decimal digits.  `ParseLevel` rejects
everything outside `-128 .. 127` afterwards, values beyond the machine range
included, so the range check cannot be observed through it. -/
def Atoi (s : String) : Option Int :=
  let digits (ds : List Char) : Option Nat :=
    if ds.isEmpty || !ds.all Char.isDigit then none
    else some (ds.foldl (fun a c => a * 10 + (c.toNat - 48)) 0)
  match s.toList with
  | '-' :: ds => (digits ds).map fun n => -(n : Int)
  | '+' :: ds => (digits ds).map fun n => (n : Int)
  | ds => (digits ds).map fun n => (n : Int)

/-- The function `zerolog.ParseLevel` (`log.go`).  `none` is the return
`(NoLevel, err)` with a non-nil error, `some l` the return `(l, nil)`. -/
def ParseLevel (levelStr : String) : Option Level :=
  if EqualFold levelStr (Level.String TraceLevel) then some TraceLevel
  else if EqualFold levelStr (Level.String DebugLevel) then some DebugLevel
  else if EqualFold levelStr (Level.String InfoLevel) then some InfoLevel
  else if EqualFold levelStr (Level.String WarnLevel) then some WarnLevel
  else if EqualFold levelStr (Level.String ErrorLevel) then some ErrorLevel
  else if EqualFold levelStr (Level.String FatalLevel) then some FatalLevel
  else if EqualFold levelStr (Level.String PanicLevel) then some PanicLevel
  else if EqualFold levelStr (Level.String Disabled) then some Disabled
  else if EqualFold levelStr (Level.String NoLevel) then some NoLevel
  else
    match Atoi levelStr with
    | none => none
    | some i => if i > 127 ∨ i < -128 then none else some i

/-- The hooks a logger can carry here: only the timestamp hook `th` that
`Context.Timestamp` installs. -/
inductive Hook
  | timestampHook
  deriving DecidableEq, Repr

/-- The struct `zerolog.Logger`: writer, own level, hooks and the encoded
context.  The sampler, the stack flag and the Go context are never set by this
package and are left out. -/
structure Logger where
  w : Writer
  level : Level
  hooks : List Hook
  context : Fields
  deriving DecidableEq, Repr

/-- The struct `zerolog.Context`, a logger under construction. -/
structure Context where
  l : Logger
  deriving DecidableEq, Repr

/-- The function `zerolog.New`: a nil writer becomes `io.Discard`, the level
starts at `TraceLevel`. -/
def New (w : Option Writer) : Logger :=
  { w := w.getD Writer.discard, level := TraceLevel, hooks := [], context := [] }

/-- The method `Logger.With`: a context over a copy of the logger, with a fresh
copy of the encoded fields. -/
def Logger.With (l : Logger) : Context :=
  ⟨{ l with context := l.context }⟩

/-- The method `Logger.Hook`: the hooks of the receiver followed by the new
ones, in a copy. -/
def Logger.Hook (l : Logger) (hooks : List Hook) : Logger :=
  if hooks.length = 0 then l else { l with hooks := l.hooks ++ hooks }

/-- The method `Context.Timestamp`: installs the timestamp hook. -/
def Context.Timestamp (c : Context) : Context :=
  ⟨c.l.Hook [Hook.timestampHook]⟩

/-- The method `Context.Str`: appends one string member to the context. -/
def Context.Str (c : Context) (key val : String) : Context :=
  ⟨{ c.l with context := c.l.context ++ [(key, Value.str val)] }⟩

/-- The method `Context.Fields` on a `map[string]any`: `appendFields` sorts the
keys and appends every entry to the context.  Nothing already in the context is
removed or replaced. -/
def Context.Fields (c : Context) (fields : Fields) : Context :=
  ⟨{ c.l with context := c.l.context ++ fields }⟩

/-- The method `Context.Logger`. -/
def Context.Logger (c : Context) : Logger := c.l

/-- The method `Logger.Output`: a new logger on `w` that keeps level, hooks and
a copy of the context. -/
def Logger.Output (l : Logger) (w : Option Writer) : Logger :=
  let l2 := New w
  let l2 := { l2 with level := l.level }
  let l2 := if l.hooks.length > 0 then { l2 with hooks := l2.hooks ++ l.hooks } else l2
  { l2 with context := l.context }

/-- The callback an event runs after it has been written: `panic(msg)` for
`Logger.Panic`, `os.Exit(1)` for `Logger.Fatal`. -/
inductive Done
  | panic
  | exit
  deriving DecidableEq, Repr

/-- Running the callback with the message. -/
def Done.run : Done → String → Fault
  | Done.panic, msg => Fault.panicMsg msg
  | Done.exit, _ => Fault.exit 1

/-- The struct `zerolog.Event`: the buffer of members appended so far, the
writer, the level, the callback and the hooks. -/
structure Event where
  buf : Fields
  w : Writer
  level : Level
  done : Option Done
  ch : List Hook
  deriving DecidableEq, Repr

end zerolog

/-! ## Package state -/

/-- The struct `zlWrapper`, without its mutex. -/
structure zlWrapper where
  appName : String
  logger : zerolog.Logger
  deriving DecidableEq, Repr

/-- A `*zlWrapper`: an index into the heap of wrappers. A `Logger` interface
value is `Option Ptr`, `none` being nil. -/
abbrev Ptr := Nat

/-- What `flag.Lookup("debug").Value` can be: a `flag.Getter` whose `Get`
returns `v`, or a `flag.Value` that is not a getter. -/
inductive FlagValue
  | getter (v : Value)
  | plain
  deriving DecidableEq, Repr

/-- The state of the process the package reads or writes. -/
structure World where
  /-- The package variable `globalLogger`. -/
  globalLogger : Option Ptr
  /-- Whether `initOnce` has run its function. -/
  initOnce : Bool
  /-- The allocated `zlWrapper` values; `Ptr` indexes this list. -/
  heap : List zlWrapper
  /-- The zerolog global level, set by `zerolog.SetGlobalLevel`. -/
  gLevel : zerolog.Level
  LevelFieldName : String
  MessageFieldName : String
  TimestampFieldName : String
  TimeFieldFormat : String
  /-- The flag `debug` of `flag.CommandLine`, `none` when it is not defined. -/
  debugFlag : Option FlagValue
  /-- The flags of the standard library logger. -/
  stdlogFlags : Int
  /-- The zerolog logger the standard library logger writes to, `none` while it
  still writes to its default. -/
  stdlogOutput : Option zerolog.Logger
  /-- What `zerolog.TimestampFunc()` returns, in Unix seconds. -/
  clock : Int
  /-- Every record written so far with the writer that received it, oldest
  first. -/
  output : List (Writer × Fields)
  deriving DecidableEq, Repr

/-- The records a sink has received, oldest first. -/
def World.written (s : World) (w : Writer) : List Fields :=
  (s.output.filter fun e => e.1 = w).map Prod.snd

/-- The wrapper a pointer refers to. -/
def World.deref (s : World) (p : Ptr) : Option zlWrapper := s.heap[p]?

/-! ## zerolog events -/

namespace zerolog

/-- The method `Logger.should` (`log.go`): an event is dropped when its level is
below the level of the logger or below the global level.  Loggers here always
come from `New`, so the writer is never nil, and no sampler is set. -/
def Logger.should (s : World) (l : Logger) (lvl : Level) : Bool :=
  if lvl < l.level ∨ lvl < s.gLevel then false else true

/-- The method `Event.Str`: appends one string member to the buffer. -/
def Event.Str (e : Event) (key val : String) : Event :=
  { e with buf := e.buf ++ [(key, Value.str val)] }

/-- The method `Logger.newEvent` (`log.go`).  A disabled event still runs its
callback, with the empty message (`if done != nil { done("") }`), and is nil
otherwise.  An enabled event starts with the level member, unless the level is
`NoLevel` or the level field name is empty, followed by the context of the
logger. -/
def Logger.newEvent (s : World) (l : Logger) (level : Level) (done : Option Done) :
    Except Fault (Option Event) :=
  if !l.should s level then
    match done with
    | some d => Except.error (d.run "")
    | none => Except.ok none
  else
    let e : Event := { buf := [], w := l.w, level := level, done := done, ch := l.hooks }
    let e := if level ≠ NoLevel ∧ s.LevelFieldName ≠ "" then
      e.Str s.LevelFieldName (Level.String level) else e
    Except.ok (some { e with buf := e.buf ++ l.context })

/-- The methods `Logger.Debug`, `Info`, `Warn`, `Error`, `Panic` and `Fatal`:
an event of that level, the last two with a callback. -/
def Logger.Debug (s : World) (l : Logger) : Except Fault (Option Event) :=
  l.newEvent s DebugLevel none

def Logger.Info (s : World) (l : Logger) : Except Fault (Option Event) :=
  l.newEvent s InfoLevel none

def Logger.Warn (s : World) (l : Logger) : Except Fault (Option Event) :=
  l.newEvent s WarnLevel none

def Logger.Error (s : World) (l : Logger) : Except Fault (Option Event) :=
  l.newEvent s ErrorLevel none

def Logger.Panic (s : World) (l : Logger) : Except Fault (Option Event) :=
  l.newEvent s PanicLevel (some Done.panic)

def Logger.Fatal (s : World) (l : Logger) : Except Fault (Option Event) :=
  l.newEvent s FatalLevel (some Done.exit)

/-- The value `enc.AppendTime` encodes: the Unix seconds as a number under
`TimeFormatUnix`, the rendered instant under any other format. -/
def timeValue (format : String) (sec : Int) : Value :=
  if format = TimeFormatUnix then Value.int sec else Value.time format sec

/-- The method `Hook.Run` of the timestamp hook, which is `Event.Timestamp`:
appends the current time under `TimestampFieldName`. -/
def Hook.Run (s : World) (e : Event) : Hook → Event
  | Hook.timestampHook =>
    { e with buf := e.buf ++ [(s.TimestampFieldName, timeValue s.TimeFieldFormat s.clock)] }

/-- The method `Event.write`: hands the finished buffer to the writer.
`io.Discard` keeps nothing. -/
def Event.write (s : World) (e : Event) : World :=
  if e.w = Writer.discard then s else { s with output := s.output ++ [(e.w, e.buf)] }

/-- The method `Event.msg` (`event.go`): runs the hooks, appends the message
member only `if msg != ""`, writes the record and then runs the deferred
callback with the message. -/
def Event.msg (s : World) (e : Event) (msg : String) : Except Fault Unit × World :=
  let e := e.ch.foldl (fun e h => Hook.Run s e h) e
  let e := if msg ≠ "" then { e with buf := e.buf ++ [(s.MessageFieldName, Value.str msg)] } else e
  let s := e.write s
  match e.done with
  | some d => (Except.error (d.run msg), s)
  | none => (Except.ok (), s)

/-- The method `Event.Msgf` applied to the result of a level method.  A nil
event returns at once; otherwise the message is `fmt.Sprintf(format, v...)`.
`Sprintf` is the formatting function of the Go standard library, taken as a
parameter. -/
def Event.Msgf (Sprintf : String → List Value → String) (s : World)
    (e : Except Fault (Option Event)) (format : String) (v : List Value) :
    Except Fault Unit × World :=
  match e with
  | Except.error f => (Except.error f, s)
  | Except.ok none => (Except.ok (), s)
  | Except.ok (some e) => e.msg s (Sprintf format v)

end zerolog

/-! ## logger.go -/

open zerolog in
/-- The function `InitGlobalLogger`.  `initOnce.Do` runs the body at most once,
and counts a body that panicked as run.  The two type assertions on the flag
value panic when the host has defined `debug` as something else than a boolean
flag. -/
def InitGlobalLogger (appName : String) (level : String) (s : World) :
    Except Fault Unit × World :=
  if s.initOnce then (Except.ok (), s)
  else
    let s := { s with initOnce := true }
    let s := if s.debugFlag = none then
      { s with debugFlag := some (FlagValue.getter (Value.bool false)) } else s
    match s.debugFlag with
    | some (FlagValue.getter (Value.bool debug)) =>
      let level := match ParseLevel level with
        | none => InfoLevel
        | some l => l
      let s := { s with gLevel := level }
      let s := if debug then { s with gLevel := DebugLevel } else s
      let s := { s with
        LevelFieldName := "l", MessageFieldName := "m", TimestampFieldName := "t",
        TimeFieldFormat := TimeFormatUnix }
      let zl := (((New (some Writer.stderr)).With.Timestamp).Str "a" appName).Logger
      let s := { s with
        globalLogger := some s.heap.length,
        heap := s.heap ++ [zlWrapper.mk appName zl] }
      (Except.ok (), { s with stdlogFlags := 0, stdlogOutput := some zl })
    | _ => (Except.error Fault.typeAssertion, s)

/-- The method `BaseLogger`. -/
def zlWrapper.BaseLogger (p : Ptr) (s : World) : Except Fault zerolog.Logger :=
  match s.deref p with
  | none => Except.error Fault.nilDereference
  | some w => Except.ok w.logger

/-- The method `SetOutput`: the wrapper gets a logger on the new writer and the
standard library logger is pointed at it. -/
def zlWrapper.SetOutput (p : Ptr) (writer : Option Writer) (s : World) :
    Except Fault Unit × World :=
  match s.deref p with
  | none => (Except.error Fault.nilDereference, s)
  | some w =>
    let updatedLogger := w.logger.Output writer
    let s := { s with heap := s.heap.set p { w with logger := updatedLogger } }
    (Except.ok (), { s with stdlogFlags := 0, stdlogOutput := some updatedLogger })

/-- The method `Debug`. -/
def zlWrapper.Debug (Sprintf : String → List Value → String) (p : Ptr)
    (format : String) (args : List Value) (s : World) : Except Fault Unit × World :=
  match s.deref p with
  | none => (Except.error Fault.nilDereference, s)
  | some w => zerolog.Event.Msgf Sprintf s (w.logger.Debug s) format args

/-- The method `Info`. -/
def zlWrapper.Info (Sprintf : String → List Value → String) (p : Ptr)
    (format : String) (args : List Value) (s : World) : Except Fault Unit × World :=
  match s.deref p with
  | none => (Except.error Fault.nilDereference, s)
  | some w => zerolog.Event.Msgf Sprintf s (w.logger.Info s) format args

/-- The method `Warn`. -/
def zlWrapper.Warn (Sprintf : String → List Value → String) (p : Ptr)
    (format : String) (args : List Value) (s : World) : Except Fault Unit × World :=
  match s.deref p with
  | none => (Except.error Fault.nilDereference, s)
  | some w => zerolog.Event.Msgf Sprintf s (w.logger.Warn s) format args

/-- The method `Error`. -/
def zlWrapper.Error (Sprintf : String → List Value → String) (p : Ptr)
    (format : String) (args : List Value) (s : World) : Except Fault Unit × World :=
  match s.deref p with
  | none => (Except.error Fault.nilDereference, s)
  | some w => zerolog.Event.Msgf Sprintf s (w.logger.Error s) format args

/-- The method `Panic`. -/
def zlWrapper.Panic (Sprintf : String → List Value → String) (p : Ptr)
    (format : String) (args : List Value) (s : World) : Except Fault Unit × World :=
  match s.deref p with
  | none => (Except.error Fault.nilDereference, s)
  | some w => zerolog.Event.Msgf Sprintf s (w.logger.Panic s) format args

/-- The method `Fatal`. -/
def zlWrapper.Fatal (Sprintf : String → List Value → String) (p : Ptr)
    (format : String) (args : List Value) (s : World) : Except Fault Unit × World :=
  match s.deref p with
  | none => (Except.error Fault.nilDereference, s)
  | some w => zerolog.Event.Msgf Sprintf s (w.logger.Fatal s) format args

/-- The loop of `toFields`, two elements a step: `fields[keyValues[i].(string)]
= keyValues[i+1]`.  The type assertion panics on a key that is not a string. -/
def toFieldsLoop : List Value → Fields → Except Fault Fields
  | k :: v :: rest, fields =>
    match k with
    | Value.str key => toFieldsLoop rest (mapSet fields key v)
    | _ => Except.error Fault.typeAssertion
  | _, fields => Except.ok fields

/-- The function `toFields`: the empty map for an odd number of arguments,
otherwise the map of the pairs. -/
def toFields (keyValues : List Value) : Except Fault Fields :=
  if keyValues.length % 2 ≠ 0 then Except.ok []
  else toFieldsLoop keyValues []

/-- The method `With`: a new wrapper around a logger whose context is the
context of the receiver followed by the fields.  The new wrapper has no
`appName` of its own. -/
def zlWrapper.With (p : Ptr) (keyValues : List Value) (s : World) :
    Except Fault Ptr × World :=
  match s.deref p with
  | none => (Except.error Fault.nilDereference, s)
  | some w =>
    match toFields keyValues with
    | Except.error f => (Except.error f, s)
    | Except.ok fields =>
      let zl := (w.logger.With.Fields fields).Logger
      (Except.ok s.heap.length, { s with heap := s.heap ++ [zlWrapper.mk "" zl] })

/-! ## default.go -/

/-- The function `getLogger`. -/
def getLogger (s : World) : Except Fault (Option Ptr) × World :=
  if s.globalLogger = none then
    match InitGlobalLogger "un-configured" "info" s with
    | (Except.error f, s1) => (Except.error f, s1)
    | (Except.ok _, s1) => (Except.ok s1.globalLogger, s1)
  else (Except.ok s.globalLogger, s)

/-- A method call on the result of `getLogger()`; calling through a nil
interface panics. -/
def onGlobal {α : Type} (s : World) (method : Ptr → World → Except Fault α × World) :
    Except Fault α × World :=
  match getLogger s with
  | (Except.error f, s1) => (Except.error f, s1)
  | (Except.ok none, s1) => (Except.error Fault.nilDereference, s1)
  | (Except.ok (some p), s1) => method p s1

/-- The function `Debug`. -/
def Debug (Sprintf : String → List Value → String) (format : String) (args : List Value)
    (s : World) : Except Fault Unit × World :=
  onGlobal s fun p => zlWrapper.Debug Sprintf p format args

/-- The function `Info`. -/
def Info (Sprintf : String → List Value → String) (format : String) (args : List Value)
    (s : World) : Except Fault Unit × World :=
  onGlobal s fun p => zlWrapper.Info Sprintf p format args

/-- The function `Warn`. -/
def Warn (Sprintf : String → List Value → String) (format : String) (args : List Value)
    (s : World) : Except Fault Unit × World :=
  onGlobal s fun p => zlWrapper.Warn Sprintf p format args

/-- The function `Error`. -/
def Error (Sprintf : String → List Value → String) (format : String) (args : List Value)
    (s : World) : Except Fault Unit × World :=
  onGlobal s fun p => zlWrapper.Error Sprintf p format args

/-- The function `Panic`. -/
def Panic (Sprintf : String → List Value → String) (format : String) (args : List Value)
    (s : World) : Except Fault Unit × World :=
  onGlobal s fun p => zlWrapper.Panic Sprintf p format args

/-- The function `Fatal`. -/
def Fatal (Sprintf : String → List Value → String) (format : String) (args : List Value)
    (s : World) : Except Fault Unit × World :=
  onGlobal s fun p => zlWrapper.Fatal Sprintf p format args

/-- The function `SetOutput`. -/
def SetOutput (w : Option Writer) (s : World) : Except Fault Unit × World :=
  onGlobal s fun p => zlWrapper.SetOutput p w

/-- The function `With`. -/
def With (keyValues : List Value) (s : World) : Except Fault Ptr × World :=
  onGlobal s fun p => zlWrapper.With p keyValues

/-! ## Observing records and running the model -/

/-- The names of the members of a record, in order. -/
def keys (r : Fields) : List String := r.map Prod.fst

/-- The value a record has under a name once it is decoded as a JSON object
into a Go map, as the tests do with `json.Unmarshal`: of several members with
the same name the last one wins. -/
def jsonGet (r : Fields) (k : String) : Option Value := r.reverse.lookup k

/-- The value the last pair with key `k` gives in an interleaved key-value
argument list. -/
def lastValue : List Value → String → Option Value
  | key :: v :: rest, k =>
    match lastValue rest k with
    | some v1 => some v1
    | none => if key = Value.str k then some v else none
  | _, _ => none

/-- Whether every key position of an interleaved argument list holds a string. -/
def stringKeys : List Value → Bool
  | Value.str _ :: _ :: rest => stringKeys rest
  | _ :: _ :: _ => false
  | _ => true

/-- The four levels that have a plain emit method. -/
inductive Severity
  | debug
  | info
  | warn
  | error
  deriving DecidableEq, Repr

/-- The zerolog level of a severity. -/
def Severity.level : Severity → zerolog.Level
  | Severity.debug => zerolog.DebugLevel
  | Severity.info => zerolog.InfoLevel
  | Severity.warn => zerolog.WarnLevel
  | Severity.error => zerolog.ErrorLevel

/-- The lowercase name of a severity, also the level string that selects it. -/
def Severity.name : Severity → String
  | Severity.debug => "debug"
  | Severity.info => "info"
  | Severity.warn => "warn"
  | Severity.error => "error"

/-- The emit method of a severity: `Debug`, `Info`, `Warn` or `Error`. -/
def Severity.emit (Sprintf : String → List Value → String) :
    Severity → Ptr → String → List Value → World → Except Fault Unit × World
  | Severity.debug => zlWrapper.Debug Sprintf
  | Severity.info => zlWrapper.Info Sprintf
  | Severity.warn => zlWrapper.Warn Sprintf
  | Severity.error => zlWrapper.Error Sprintf

/-- A process that has not touched the package yet: no global logger, the
zerolog variables as the library declares them, the standard library logger
with its standard flags, nothing written.  The registration of the flag `debug`
and the clock are left to the caller. -/
def processStart (debugFlag : Option FlagValue) (clock : Int) : World :=
  { globalLogger := none, initOnce := false, heap := [],
    gLevel := zerolog.TraceLevel,
    LevelFieldName := "level", MessageFieldName := "message", TimestampFieldName := "time",
    TimeFieldFormat := "2006-01-02T15:04:05Z07:00",
    debugFlag := debugFlag, stdlogFlags := 3, stdlogOutput := none,
    clock := clock, output := [] }

/-- How `%v`, `%s` and `%d` print a string, an integer or a boolean. -/
def verbText : Value → String
  | Value.str s => s
  | Value.int i => toString i
  | Value.bool b => toString b
  | _ => ""

/-- The function `fmt.Sprintf` on the formats used to run the model: plain text
with the verbs `%s`, `%d`, `%v` and `%%`, as many arguments as verbs, a string
for each `%s`, an integer for each `%d` and a string, integer or boolean for
each `%v`.  On such a call it returns what Go returns; other calls are outside
its domain. -/
def sprintfPlain : List Char → List Value → List Char
  | '%' :: '%' :: rest, args => '%' :: sprintfPlain rest args
  | '%' :: _ :: rest, a :: args => (verbText a).toList ++ sprintfPlain rest args
  | c :: rest, args => c :: sprintfPlain rest args
  | [], _ => []

/-- The formatter handed to the model when it is run on a concrete call. -/
def goSprintf (format : String) (args : List Value) : String :=
  String.mk (sprintfPlain format.toList args)

/-- Whether the flag `debug` is undefined or a boolean flag, the two cases in
which the type assertions of `InitGlobalLogger` succeed. -/
def boolFlag : Option FlagValue → Bool
  | none => true
  | some (FlagValue.getter (Value.bool _)) => true
  | _ => false

/-- The value `InitGlobalLogger` reads from the flag `debug`: false for a flag
it has to define itself. -/
def debugOn : Option FlagValue → Bool
  | some (FlagValue.getter (Value.bool b)) => b
  | _ => false

/-- The global level `InitGlobalLogger` sets: the parsed level, `InfoLevel`
when parsing fails, and `DebugLevel` whenever the flag is on. -/
def effectiveLevel (level : String) (debug : Bool) : zerolog.Level :=
  if debug then zerolog.DebugLevel
  else match zerolog.ParseLevel level with
    | none => zerolog.InfoLevel
    | some l => l

/-- The zerolog logger `InitGlobalLogger` builds:
`zerolog.New(os.Stderr).With().Timestamp().Str("a", appName).Logger()`. -/
def globalZl (appName : String) : zerolog.Logger :=
  { w := Writer.stderr, level := zerolog.TraceLevel, hooks := [zerolog.Hook.timestampHook],
    context := [("a", Value.str appName)] }

/-- The world a first `InitGlobalLogger` leaves behind. -/
def initialized (appName level : String) (s : World) : World :=
  { s with
    initOnce := true,
    debugFlag := some (FlagValue.getter (Value.bool (debugOn s.debugFlag))),
    gLevel := effectiveLevel level (debugOn s.debugFlag),
    LevelFieldName := "l", MessageFieldName := "m", TimestampFieldName := "t",
    TimeFieldFormat := zerolog.TimeFormatUnix,
    globalLogger := some s.heap.length,
    heap := s.heap ++ [zlWrapper.mk appName (globalZl appName)],
    stdlogFlags := 0, stdlogOutput := some (globalZl appName) }

/-- The members zerolog appends for one enabled event of a logger: the level,
the context of the logger, one timestamp for each hook, and the message unless
it is empty. -/
def recordOf (s : World) (l : zerolog.Logger) (level : zerolog.Level) (msg : String) : Fields :=
  (if level ≠ zerolog.NoLevel ∧ s.LevelFieldName ≠ "" then
      [(s.LevelFieldName, Value.str (zerolog.Level.String level))] else [])
    ++ l.context
    ++ List.replicate l.hooks.length
        (s.TimestampFieldName, zerolog.timeValue s.TimeFieldFormat s.clock)
    ++ (if msg ≠ "" then [(s.MessageFieldName, Value.str msg)] else [])

/-- The world after a writer has received one more record. -/
def World.write (s : World) (w : Writer) (r : Fields) : World :=
  if w = Writer.discard then s else { s with output := s.output ++ [(w, r)] }

/-- What a callback, if there is one, turns the result of an emit call into. -/
def doneResult (done : Option zerolog.Done) (msg : String) : Except Fault Unit :=
  match done with
  | some d => Except.error (d.run msg)
  | none => Except.ok ()

/-- The records a call has written: what `output` holds beyond what it held in
the world the call started from. -/
def newRecords (before : World) (r : Except Fault Unit × World) : List (Writer × Fields) :=
  r.2.output.drop before.output.length

/-- The six methods of a binding that emit a record. -/
inductive EmitMethod
  | debug
  | info
  | warn
  | error
  | panic
  | fatal
  deriving DecidableEq, Repr

/-- The zerolog level of an emit method. -/
def EmitMethod.level : EmitMethod → zerolog.Level
  | EmitMethod.debug => zerolog.DebugLevel
  | EmitMethod.info => zerolog.InfoLevel
  | EmitMethod.warn => zerolog.WarnLevel
  | EmitMethod.error => zerolog.ErrorLevel
  | EmitMethod.panic => zerolog.PanicLevel
  | EmitMethod.fatal => zerolog.FatalLevel

/-- The callback zerolog attaches to the event of an emit method: `panic(msg)`
for `Panic`, `os.Exit(1)` for `Fatal`, none for the others. -/
def EmitMethod.done : EmitMethod → Option zerolog.Done
  | EmitMethod.panic => some zerolog.Done.panic
  | EmitMethod.fatal => some zerolog.Done.exit
  | _ => none

/-- The method of `zlWrapper` an emit method stands for. -/
def EmitMethod.call (Sprintf : String → List Value → String) :
    EmitMethod → Ptr → String → List Value → World → Except Fault Unit × World
  | EmitMethod.debug => zlWrapper.Debug Sprintf
  | EmitMethod.info => zlWrapper.Info Sprintf
  | EmitMethod.warn => zlWrapper.Warn Sprintf
  | EmitMethod.error => zlWrapper.Error Sprintf
  | EmitMethod.panic => zlWrapper.Panic Sprintf
  | EmitMethod.fatal => zlWrapper.Fatal Sprintf

/-- The member a record starts with: the level under `LevelFieldName`, left out
for `NoLevel` or an empty field name. -/
def levelMember (s : World) (level : zerolog.Level) : Fields :=
  if level ≠ zerolog.NoLevel ∧ s.LevelFieldName ≠ "" then
    [(s.LevelFieldName, Value.str (zerolog.Level.String level))] else []

/-- The members a record ends with: one timestamp under `TimestampFieldName`
for each hook of the logger, then the message under `MessageFieldName` unless
it is empty. -/
def closingMembers (s : World) (l : zerolog.Logger) (msg : String) : Fields :=
  List.replicate l.hooks.length
      (s.TimestampFieldName, zerolog.timeValue s.TimeFieldFormat s.clock)
    ++ (if msg ≠ "" then [(s.MessageFieldName, Value.str msg)] else [])

/-- A map whose keys increase strictly from left to right. -/
def sortedMap (m : Fields) : Prop := m.Pairwise fun x y => x.1.data < y.1.data

/-- The wrapper `With` allocates: no `appName`, and the logger of the parent
with the fields appended to its context. -/
def forkOf (w : zlWrapper) (fields : Fields) : zlWrapper :=
  zlWrapper.mk "" (zerolog.Logger.mk w.logger.w w.logger.level w.logger.hooks
    (w.logger.context ++ fields))

/-- The world of the tests: a fresh process in which `InitGlobalLogger(appName,
level)` has run and the global logger, at address 0, writes to buffer 1. -/
def testWorld (appName level : String) (debugFlag : Option FlagValue) : World :=
  (zlWrapper.SetOutput 0 (some (Writer.buffer 1))
    (InitGlobalLogger appName level (processStart debugFlag 1700000000)).2).2

/-- The level strings the specification lists as accepted, compared as they are
written: `trace`, `debug`, `info`, `warn`, `error`, `panic`, `fatal`.  This
follows the words of the specification; what the code runs on a level string
is `zerolog.ParseLevel`. -/
def specAcceptedLevel (s : String) : Bool :=
  ["trace", "debug", "info", "warn", "error", "panic", "fatal"].contains s

/-! ## Lemmas -/

theorem init_fresh (appName level : String) (s : World)
    (h0 : s.initOnce = false) (hf : boolFlag s.debugFlag = true) :
    InitGlobalLogger appName level s = (Except.ok (), initialized appName level s) := by
  obtain ⟨gl, io, hp, lv, ln, mn, tn, tf, df, sf, so, ck, out⟩ := s
  simp only at h0 hf
  subst h0
  match df, hf with
  | none, _ =>
    simp [InitGlobalLogger, initialized, debugOn, effectiveLevel, globalZl, zerolog.New,
      zerolog.Logger.With, zerolog.Context.Timestamp, zerolog.Context.Str,
      zerolog.Context.Logger, zerolog.Logger.Hook]
  | some (FlagValue.getter (Value.bool b)), _ =>
    cases b <;>
    simp [InitGlobalLogger, initialized, debugOn, effectiveLevel, globalZl, zerolog.New,
      zerolog.Logger.With, zerolog.Context.Timestamp, zerolog.Context.Str,
      zerolog.Context.Logger, zerolog.Logger.Hook]

theorem hooks_foldl (s : World) (hooks : List zerolog.Hook) (e : zerolog.Event) :
    hooks.foldl (fun e h => zerolog.Hook.Run s e h) e =
      zerolog.Event.mk
        (e.buf ++ List.replicate hooks.length
          (s.TimestampFieldName, zerolog.timeValue s.TimeFieldFormat s.clock))
        e.w e.level e.done e.ch := by
  induction hooks generalizing e with
  | nil => simp
  | cons h t ih =>
    cases h
    rw [List.foldl_cons, ih]
    simp [zerolog.Hook.Run, List.replicate_succ]

theorem msgf_newEvent (Sprintf : String → List Value → String) (s : World)
    (l : zerolog.Logger) (level : zerolog.Level) (done : Option zerolog.Done)
    (format : String) (args : List Value) :
    zerolog.Event.Msgf Sprintf s (l.newEvent s level done) format args =
      if l.should s level = true then
        (doneResult done (Sprintf format args),
          s.write l.w (recordOf s l level (Sprintf format args)))
      else (doneResult done "", s) := by
  by_cases hs : l.should s level = true
  · simp only [hs, if_true]
    simp only [zerolog.Logger.newEvent, hs, Bool.not_true, Bool.false_eq_true, if_false,
      zerolog.Event.Msgf, zerolog.Event.msg, hooks_foldl, zerolog.Event.Str]
    by_cases hl : level ≠ zerolog.NoLevel ∧ s.LevelFieldName ≠ "" <;>
    by_cases hm : Sprintf format args = "" <;>
    cases done <;>
    simp [hl, hm, recordOf, World.write, zerolog.Event.write, doneResult]
  · simp only [hs, if_false]
    cases done <;>
    simp [zerolog.Logger.newEvent, hs, zerolog.Event.Msgf, doneResult]

theorem emit_live (Sprintf : String → List Value → String) (s : World) (p : Ptr)
    (w : zlWrapper) (L : Severity) (format : String) (args : List Value)
    (hp : s.deref p = some w) :
    L.emit Sprintf p format args s =
      if w.logger.should s L.level = true then
        (Except.ok (), s.write w.logger.w (recordOf s w.logger L.level (Sprintf format args)))
      else (Except.ok (), s) := by
  cases L <;>
  simp [Severity.emit, Severity.level, zlWrapper.Debug, zlWrapper.Info, zlWrapper.Warn,
    zlWrapper.Error, hp, zerolog.Logger.Debug, zerolog.Logger.Info, zerolog.Logger.Warn,
    zerolog.Logger.Error, msgf_newEvent, doneResult]

theorem panic_live (Sprintf : String → List Value → String) (s : World) (p : Ptr)
    (w : zlWrapper) (format : String) (args : List Value) (hp : s.deref p = some w) :
    zlWrapper.Panic Sprintf p format args s =
      if w.logger.should s zerolog.PanicLevel = true then
        (Except.error (Fault.panicMsg (Sprintf format args)),
          s.write w.logger.w (recordOf s w.logger zerolog.PanicLevel (Sprintf format args)))
      else (Except.error (Fault.panicMsg ""), s) := by
  simp [zlWrapper.Panic, hp, zerolog.Logger.Panic, msgf_newEvent, doneResult, zerolog.Done.run]

theorem parse_severity (L : Severity) : zerolog.ParseLevel L.name = some L.level := by
  cases L <;> decide

theorem deref_initialized (appName level : String) (s : World) :
    (initialized appName level s).deref s.heap.length =
      some (zlWrapper.mk appName (globalZl appName)) := by
  simp [initialized, World.deref]

theorem setOutput_live (s : World) (p : Ptr) (w : zlWrapper) (writer : Option Writer)
    (hp : s.deref p = some w) :
    zlWrapper.SetOutput p writer s =
      (Except.ok (),
        { s with
          heap := s.heap.set p (zlWrapper.mk w.appName (w.logger.Output writer)),
          stdlogFlags := 0, stdlogOutput := some (w.logger.Output writer) }) := by
  simp [zlWrapper.SetOutput, hp]

theorem output_eq (l : zerolog.Logger) (writer : Option Writer) :
    l.Output writer =
      { w := writer.getD Writer.discard, level := l.level, hooks := l.hooks,
        context := l.context } := by
  by_cases h : l.hooks.length > 0 <;> simp [zerolog.Logger.Output, zerolog.New, h]
  simpa using h

theorem should_after_init (appName : String) (L : Severity) (s : World) (writer : Option Writer)
    (heap : List zlWrapper) (so : Option zerolog.Logger) (sf : Int) :
    zerolog.Logger.should
      { initialized appName L.name s with heap := heap, stdlogFlags := sf, stdlogOutput := so }
      ((globalZl appName).Output writer) L.level = true := by
  cases L <;> cases h : debugOn s.debugFlag <;>
  simp [zerolog.Logger.should, initialized, output_eq, globalZl, effectiveLevel, h,
    Severity.level, Severity.name] <;> decide

theorem severity_string (L : Severity) : zerolog.Level.String L.level = L.name := by
  cases L <;> decide

theorem severity_ne_noLevel (L : Severity) : L.level ≠ zerolog.NoLevel := by
  cases L <;> decide

theorem newRecords_self (s : World) (x : Except Fault Unit) : newRecords s (x, s) = [] := by
  simp [newRecords]

theorem newRecords_write (s : World) (x : Except Fault Unit) (w : Writer) (r : Fields) :
    newRecords s (x, s.write w r) = if w = Writer.discard then [] else [(w, r)] := by
  by_cases h : w = Writer.discard <;> simp [newRecords, World.write, h]

theorem lookup_cons_if (k k1 : String) (v1 : Value) (m : Fields) :
    List.lookup k ((k1, v1) :: m) = if k = k1 then some v1 else List.lookup k m := by
  rw [List.lookup_cons]
  by_cases h : k = k1
  · subst h
    simp
  · have hb : (k == k1) = false := by simpa using h
    simp [hb, h]

theorem lookup_mapSet (m : Fields) (k : String) (v : Value) (k2 : String) :
    (mapSet m k v).lookup k2 = if k2 = k then some v else m.lookup k2 := by
  induction m with
  | nil => by_cases h : k2 = k <;> simp [mapSet, lookup_cons_if, h]
  | cons x m ih =>
    obtain ⟨k1, v1⟩ := x
    by_cases h1 : k = k1
    · subst h1
      by_cases h : k2 = k <;> simp [mapSet, lookup_cons_if, h]
    · by_cases h2 : k.data < k1.data
      · by_cases h : k2 = k <;> simp [mapSet, lookup_cons_if, h, h1, h2]
      · by_cases h : k2 = k
        · subst h
          simp [mapSet, lookup_cons_if, h1, h2, ih]
        · simp [mapSet, lookup_cons_if, h, h1, h2, ih]

theorem mem_mapSet (m : Fields) (k : String) (v : Value) (x : String × Value)
    (hx : x ∈ mapSet m k v) : x = (k, v) ∨ x ∈ m := by
  induction m with
  | nil => simpa [mapSet] using hx
  | cons y m ih =>
    obtain ⟨k1, v1⟩ := y
    by_cases h1 : k = k1
    · simp only [mapSet, h1, if_true, List.mem_cons] at hx
      rcases hx with hx | hx
      · left; rw [hx, h1]
      · right; exact List.mem_cons_of_mem _ hx
    · by_cases h2 : k.data < k1.data
      · simp only [mapSet, h1, h2, if_true, if_false, List.mem_cons] at hx
        rcases hx with hx | hx | hx
        · left; exact hx
        · right; rw [hx]; exact List.mem_cons_self _ _
        · right; exact List.mem_cons_of_mem _ hx
      · simp only [mapSet, h1, h2, if_false, List.mem_cons] at hx
        rcases hx with hx | hx
        · right; rw [hx]; exact List.mem_cons_self _ _
        · rcases ih hx with h | h
          · left; exact h
          · right; exact List.mem_cons_of_mem _ h

theorem mapSet_sorted (m : Fields) (k : String) (v : Value) (hm : sortedMap m) :
    sortedMap (mapSet m k v) := by
  induction m with
  | nil => simp [mapSet, sortedMap]
  | cons y m ih =>
    obtain ⟨k1, v1⟩ := y
    unfold sortedMap at hm ih ⊢
    rw [List.pairwise_cons] at hm
    by_cases h1 : k = k1
    · subst h1
      simp only [mapSet, if_true]
      exact List.pairwise_cons.mpr ⟨fun b hb => hm.1 b hb, hm.2⟩
    · by_cases h2 : k.data < k1.data
      · simp only [mapSet, h1, h2, if_true, if_false]
        refine List.pairwise_cons.mpr ⟨?_, List.pairwise_cons.mpr hm⟩
        intro b hb
        rcases List.mem_cons.mp hb with hb | hb
        · rw [hb]; exact h2
        · exact lt_trans h2 (hm.1 b hb)
      · simp only [mapSet, h1, h2, if_false]
        refine List.pairwise_cons.mpr ⟨?_, ih hm.2⟩
        intro b hb
        rcases mem_mapSet m k v b hb with hb | hb
        · rw [hb]
          exact lt_of_le_of_ne (not_lt.mp h2) (fun h => h1 (String.ext h).symm)
        · exact hm.1 b hb

theorem jsonGet_append (a b : Fields) (k : String) :
    jsonGet (a ++ b) k = (jsonGet b k).or (jsonGet a k) := by
  simp [jsonGet, List.reverse_append, List.lookup_append]

theorem jsonGet_sorted (m : Fields) (k : String) (hm : sortedMap m) :
    jsonGet m k = m.lookup k := by
  induction m with
  | nil => simp [jsonGet]
  | cons y m ih =>
    obtain ⟨k1, v1⟩ := y
    unfold sortedMap at hm ih
    rw [List.pairwise_cons] at hm
    have hcons : (k1, v1) :: m = [(k1, v1)] ++ m := rfl
    rw [hcons, jsonGet_append, ih hm.2]
    by_cases h : k = k1
    · subst h
      have hnone : List.lookup k m = none := by
        rw [List.lookup_eq_none_iff]
        intro q hq
        have := hm.1 q hq
        simp only [bne_iff_ne, ne_eq]
        exact fun h => (lt_irrefl _ (h ▸ this))
      simp [hnone, jsonGet, lookup_cons_if]
    · simp [jsonGet, lookup_cons_if, h]

theorem jsonGet_absent (r : Fields) (k : String) (h : ∀ x ∈ r, x.1 ≠ k) :
    jsonGet r k = none := by
  unfold jsonGet
  rw [List.lookup_eq_none_iff]
  intro q hq
  simp only [bne_iff_ne, ne_eq]
  exact fun hk => h q (List.mem_reverse.mp hq) hk.symm

theorem toFieldsLoop_ok : ∀ (kv : List Value) (m : Fields), stringKeys kv = true →
    sortedMap m →
    ∃ f, toFieldsLoop kv m = Except.ok f ∧ sortedMap f ∧
      ∀ k, f.lookup k = (lastValue kv k).or (m.lookup k)
  | [], m, _, hm => ⟨m, rfl, hm, by simp [lastValue]⟩
  | [_], m, _, hm => ⟨m, rfl, hm, by simp [lastValue]⟩
  | x :: v :: rest, m, hk, hm => by
    cases x with
    | str key =>
      obtain ⟨f, hf, hs, hl⟩ := toFieldsLoop_ok rest (mapSet m key v)
        (by simpa [stringKeys] using hk) (mapSet_sorted m key v hm)
      refine ⟨f, by simpa [toFieldsLoop] using hf, hs, ?_⟩
      intro k
      rw [hl k, lookup_mapSet]
      cases hr : lastValue rest k with
      | some v1 => simp [lastValue, hr]
      | none =>
        by_cases hkk : k = key
        · subst hkk
          simp [lastValue, hr]
        · have : ¬ key = k := fun h => hkk h.symm
          simp [lastValue, hr, hkk, this]
    | nil => simp [stringKeys] at hk
    | int i => simp [stringKeys] at hk
    | bool b => simp [stringKeys] at hk
    | time l t => simp [stringKeys] at hk
    | other t => simp [stringKeys] at hk

theorem toFields_ok (kv : List Value) (hlen : kv.length % 2 = 0) (hk : stringKeys kv = true) :
    ∃ f, toFields kv = Except.ok f ∧ sortedMap f ∧ ∀ k, f.lookup k = lastValue kv k := by
  obtain ⟨f, hf, hs, hl⟩ := toFieldsLoop_ok kv [] hk (by simp [sortedMap])
  refine ⟨f, by simp [toFields, hlen, hf], hs, ?_⟩
  intro k
  simpa using hl k

theorem with_live (s : World) (p : Ptr) (w : zlWrapper) (kv : List Value) (f : Fields)
    (hp : s.deref p = some w) (hf : toFields kv = Except.ok f) :
    zlWrapper.With p kv s =
      (Except.ok s.heap.length, { s with heap := s.heap ++ [forkOf w f] }) := by
  simp [zlWrapper.With, hp, hf, zerolog.Logger.With, zerolog.Context.Fields,
    zerolog.Context.Logger, forkOf]

theorem recordOf_members (s : World) (l : zerolog.Logger) (level : zerolog.Level)
    (msg : String) :
    recordOf s l level msg = levelMember s level ++ l.context ++ closingMembers s l msg := by
  simp [recordOf, levelMember, closingMembers, List.append_assoc]

theorem call_live (Sprintf : String → List Value → String) (s : World) (p : Ptr)
    (w : zlWrapper) (M : EmitMethod) (format : String) (args : List Value)
    (hp : s.deref p = some w) :
    M.call Sprintf p format args s =
      if w.logger.should s M.level = true then
        (doneResult M.done (Sprintf format args),
          s.write w.logger.w (recordOf s w.logger M.level (Sprintf format args)))
      else (doneResult M.done "", s) := by
  cases M <;>
  simp [EmitMethod.call, EmitMethod.level, EmitMethod.done, zlWrapper.Debug, zlWrapper.Info,
    zlWrapper.Warn, zlWrapper.Error, zlWrapper.Panic, zlWrapper.Fatal, hp,
    zerolog.Logger.Debug, zerolog.Logger.Info, zerolog.Logger.Warn, zerolog.Logger.Error,
    zerolog.Logger.Panic, zerolog.Logger.Fatal, msgf_newEvent]

theorem closingMembers_keys (s : World) (l : zerolog.Logger) (msg : String) :
    ∀ x ∈ closingMembers s l msg,
      x.1 = s.TimestampFieldName ∨ x.1 = s.MessageFieldName := by
  intro x hx
  rcases List.mem_append.mp hx with h | h
  · left
    rw [(List.mem_replicate.mp h).2]
  · right
    by_cases hm : msg = ""
    · simp [hm] at h
    · simp only [ne_eq, hm, not_false_eq_true, if_true, List.mem_singleton] at h
      rw [h]

theorem jsonGet_present (r back : Fields) (k : String) (h : ∃ x ∈ back, x.1 = k) :
    jsonGet (r ++ back) k = jsonGet back k := by
  rw [jsonGet_append]
  cases hb : jsonGet back k with
  | some v => rfl
  | none =>
    exfalso
    obtain ⟨x, hx, hxk⟩ := h
    unfold jsonGet at hb
    rw [List.lookup_eq_none_iff] at hb
    have := hb x (List.mem_reverse.mpr hx)
    simp [hxk] at this

theorem jsonGet_message (s : World) (l : zerolog.Logger) (msg : String) (hm : msg ≠ "") :
    jsonGet (closingMembers s l msg) s.MessageFieldName = some (Value.str msg) := by
  simp [closingMembers, hm, jsonGet]

theorem jsonGet_timestamp (s : World) (l : zerolog.Logger) (msg : String)
    (hh : l.hooks ≠ []) (hm : msg = "" ∨ s.TimestampFieldName ≠ s.MessageFieldName) :
    jsonGet (closingMembers s l msg) s.TimestampFieldName =
      some (zerolog.timeValue s.TimeFieldFormat s.clock) := by
  have hpos : 0 < l.hooks.length := List.length_pos.mpr hh
  have hrep : jsonGet (List.replicate l.hooks.length
      (s.TimestampFieldName, zerolog.timeValue s.TimeFieldFormat s.clock))
      s.TimestampFieldName = some (zerolog.timeValue s.TimeFieldFormat s.clock) := by
    simp [jsonGet, List.lookup_replicate, Nat.ne_of_gt hpos]
  unfold closingMembers
  rw [jsonGet_append, hrep]
  by_cases h0 : msg = ""
  · simp [h0, jsonGet]
  · have hne : s.TimestampFieldName ≠ s.MessageFieldName := by
      rcases hm with h | h
      · exact absurd h h0
      · exact h
    have : jsonGet (if msg ≠ "" then [(s.MessageFieldName, Value.str msg)] else [])
        s.TimestampFieldName = none := by
      apply jsonGet_absent
      intro x hx hxk
      simp only [ne_eq, h0, not_false_eq_true, if_true, List.mem_singleton] at hx
      rw [hx] at hxk
      exact hne hxk.symm
    rw [this]
    rfl

theorem global_emit (Sprintf : String → List Value → String) (s : World)
    (appName : String) (L : Severity) (id : Nat) (format : String) (args : List Value)
    (h0 : s.initOnce = false) (hf : boolFlag s.debugFlag = true) :
    L.emit Sprintf s.heap.length format args
        (zlWrapper.SetOutput s.heap.length (some (Writer.buffer id))
          (InitGlobalLogger appName L.name s).2).2 =
      (Except.ok (),
        { (zlWrapper.SetOutput s.heap.length (some (Writer.buffer id))
            (InitGlobalLogger appName L.name s).2).2 with
          output := s.output ++ [(Writer.buffer id,
            [("l", Value.str L.name), ("a", Value.str appName), ("t", Value.int s.clock)]
              ++ if Sprintf format args = "" then [] else
                [("m", Value.str (Sprintf format args))])] }) := by
  rw [init_fresh appName L.name s h0 hf]
  simp only [setOutput_live _ _ _ _ (deref_initialized appName L.name s)]
  rw [emit_live Sprintf _ s.heap.length
    (zlWrapper.mk appName ((globalZl appName).Output (some (Writer.buffer id)))) L format args
    (by simp [World.deref, initialized])]
  simp only [should_after_init, if_true]
  by_cases hm : Sprintf format args = "" <;>
  simp [World.write, recordOf, output_eq, globalZl, initialized, hm, severity_string,
    severity_ne_noLevel, zerolog.timeValue, zerolog.TimeFormatUnix]

theorem global_output (s : World) (appName level : String) (writer : Option Writer)
    (h0 : s.initOnce = false) (hf : boolFlag s.debugFlag = true) :
    (zlWrapper.SetOutput s.heap.length writer
      (InitGlobalLogger appName level s).2).2.output = s.output := by
  rw [init_fresh appName level s h0 hf,
    setOutput_live _ _ _ _ (deref_initialized appName level s)]
  rfl

theorem with_heap_ext (q : Ptr) (kv : List Value) (s : World) :
    ∃ extra, (zlWrapper.With q kv s).2 = { s with heap := s.heap ++ extra } := by
  unfold zlWrapper.With
  cases hq : s.deref q with
  | none => exact ⟨[], by simp⟩
  | some w =>
    cases hf : toFields kv with
    | error f => exact ⟨[], by simp⟩
    | ok fields => exact ⟨[_], rfl⟩

theorem emit_heap_ext (Sprintf : String → List Value → String) (s : World) (p : Ptr)
    (w : zlWrapper) (extra : List zlWrapper) (L : Severity) (format : String)
    (args : List Value) (hp : s.deref p = some w) :
    ({ s with heap := s.heap ++ extra } : World).deref p = some w ∧
    (L.emit Sprintf p format args { s with heap := s.heap ++ extra }).1 =
      (L.emit Sprintf p format args s).1 ∧
    newRecords { s with heap := s.heap ++ extra }
        (L.emit Sprintf p format args { s with heap := s.heap ++ extra }) =
      newRecords s (L.emit Sprintf p format args s) := by
  have hp2 : ({ s with heap := s.heap ++ extra } : World).deref p = some w := by
    simp only [World.deref] at hp ⊢
    have hlt : p < s.heap.length := by
      rcases Nat.lt_or_ge p s.heap.length with h | h
      · exact h
      · rw [List.getElem?_eq_none h] at hp
        cases hp
    rw [List.getElem?_append_left hlt]
    exact hp
  have hsh : zerolog.Logger.should { s with heap := s.heap ++ extra } w.logger L.level =
      w.logger.should s L.level := by
    simp [zerolog.Logger.should]
  rw [emit_live Sprintf _ p w L format args hp2, emit_live Sprintf s p w L format args hp, hsh]
  refine ⟨hp2, ?_, ?_⟩
  · by_cases hen : w.logger.should s L.level = true <;> simp [hen]
  · by_cases hen : w.logger.should s L.level = true
    · simp only [hen, if_true, newRecords_write]
      rfl
    · simp only [hen, Bool.false_eq_true, if_false, newRecords_self]

theorem emit_agree (Sprintf : String → List Value → String) (s t : World) (p : Ptr)
    (w : zlWrapper) (L : Severity) (format : String) (args : List Value)
    (hs : s.deref p = some w) (ht : t.deref p = some w)
    (hg : t.gLevel = s.gLevel) (hl : t.LevelFieldName = s.LevelFieldName)
    (hm : t.MessageFieldName = s.MessageFieldName)
    (hn : t.TimestampFieldName = s.TimestampFieldName)
    (hf : t.TimeFieldFormat = s.TimeFieldFormat) (hc : t.clock = s.clock) :
    (L.emit Sprintf p format args t).1 = (L.emit Sprintf p format args s).1 ∧
    newRecords t (L.emit Sprintf p format args t) =
      newRecords s (L.emit Sprintf p format args s) := by
  have hsh : w.logger.should t L.level = w.logger.should s L.level := by
    simp [zerolog.Logger.should, hg]
  have hr : recordOf t w.logger L.level (Sprintf format args) =
      recordOf s w.logger L.level (Sprintf format args) := by
    simp [recordOf, hl, hm, hn, hf, hc]
  rw [emit_live Sprintf t p w L format args ht, emit_live Sprintf s p w L format args hs,
    hsh, hr]
  by_cases hen : w.logger.should s L.level = true
  · simp only [hen, if_true, newRecords_write]
    exact ⟨trivial, trivial⟩
  · simp only [hen, Bool.false_eq_true, if_false, newRecords_self]
    exact ⟨trivial, trivial⟩

theorem deref_lt (s : World) (p : Ptr) (w : zlWrapper) (hp : s.deref p = some w) :
    p < s.heap.length := by
  simp only [World.deref] at hp
  rcases Nat.lt_or_ge p s.heap.length with h | h
  · exact h
  · rw [List.getElem?_eq_none h] at hp
    cases hp

theorem init_done (appName level : String) (s : World) :
    (InitGlobalLogger appName level s).2.initOnce = true := by
  obtain ⟨gl, io, hp, lv, ln, mn, tn, tf, df, sf, so, ck, out⟩ := s
  cases io with
  | true => simp [InitGlobalLogger]
  | false =>
    cases df with
    | none => simp [InitGlobalLogger]
    | some f =>
      cases f with
      | plain => simp [InitGlobalLogger]
      | getter v =>
        cases v with
        | bool b => cases b <;> simp [InitGlobalLogger]
        | nil => simp [InitGlobalLogger]
        | str x => simp [InitGlobalLogger]
        | int x => simp [InitGlobalLogger]
        | time x y => simp [InitGlobalLogger]
        | other x => simp [InitGlobalLogger]

/-! ## Claims -/

/-- C1 (amended).  From a world in which `initOnce` has not run and the flag
`debug` is undefined or boolean: after `InitGlobalLogger(appName, L)` for a
level `L` among debug, info, warn and error and `SetOutput(buf)` on the global
logger, the emit method for `L` returns normally and writes exactly one record,
to `buf`.  Its members are `l` (the lowercase name of `L`), `a` (`appName`),
`t` (the Unix time) and, only when the formatted message is not empty, `m`
(the formatted message): four keys for a non-empty message, the three keys
`l`, `a`, `t` for an empty one. -/
theorem emit_after_init_record (Sprintf : String → List Value → String) (s : World)
    (appName : String) (L : Severity) (id : Nat) (format : String) (args : List Value)
    (h0 : s.initOnce = false) (hf : boolFlag s.debugFlag = true) :
    (InitGlobalLogger appName L.name s).2.globalLogger = some s.heap.length ∧
    (zlWrapper.SetOutput s.heap.length (some (Writer.buffer id))
      (InitGlobalLogger appName L.name s).2).2.output = s.output ∧
    L.emit Sprintf s.heap.length format args
        (zlWrapper.SetOutput s.heap.length (some (Writer.buffer id))
          (InitGlobalLogger appName L.name s).2).2 =
      (Except.ok (),
        { (zlWrapper.SetOutput s.heap.length (some (Writer.buffer id))
            (InitGlobalLogger appName L.name s).2).2 with
          output := s.output ++ [(Writer.buffer id,
            [("l", Value.str L.name), ("a", Value.str appName), ("t", Value.int s.clock)]
              ++ if Sprintf format args = "" then [] else
                [("m", Value.str (Sprintf format args))])] }) := by
  refine ⟨?_, ?_, global_emit Sprintf s appName L id format args h0 hf⟩
  · rw [init_fresh appName L.name s h0 hf]
    simp [initialized]
  · exact global_output s appName L.name (some (Writer.buffer id)) h0 hf

/-- C1 (witness): the theorem at `InitGlobalLogger("svc", "debug")`, a buffer and
`Debug("hello %s", "world")` from a fresh process. -/
theorem emit_after_init_record_witness :
    (processStart none 1700000000).initOnce = false ∧
    boolFlag (processStart none 1700000000).debugFlag = true ∧
    ((Severity.debug.emit goSprintf 0 "hello %s" [Value.str "world"]
        (zlWrapper.SetOutput 0 (some (Writer.buffer 1))
          (InitGlobalLogger "svc" "debug" (processStart none 1700000000)).2).2).2.written
      (Writer.buffer 1)) =
      [[("l", Value.str "debug"), ("a", Value.str "svc"), ("t", Value.int 1700000000),
        ("m", Value.str "hello world")]] :=
  ⟨rfl, rfl, by
    have h : Severity.debug.emit goSprintf 0 "hello %s" [Value.str "world"]
        (zlWrapper.SetOutput 0 (some (Writer.buffer 1))
          (InitGlobalLogger "svc" "debug" (processStart none 1700000000)).2).2 = _ :=
      (emit_after_init_record goSprintf (processStart none 1700000000) "svc" Severity.debug 1
        "hello %s" [Value.str "world"] rfl rfl).2.2
    rw [h]
    decide⟩

/-- C1 (counterexample): after `InitGlobalLogger("svc", "info")` and
`SetOutput(buf)` in a fresh process, `Info("%s", "")` formats to the empty
message and writes one record whose keys are `l`, `a` and `t`: there is no `m`,
so the keys are not `l`, `m`, `t`, `a`.  `Info("")` does the same. -/
theorem empty_message_record_lacks_m :
    goSprintf "%s" [Value.str ""] = "" ∧
    ((Severity.info.emit goSprintf 0 "%s" [Value.str ""]
        (zlWrapper.SetOutput 0 (some (Writer.buffer 1))
          (InitGlobalLogger "svc" "info" (processStart none 1700000000)).2).2).2.written
      (Writer.buffer 1)) =
      [[("l", Value.str "info"), ("a", Value.str "svc"), ("t", Value.int 1700000000)]] ∧
    ((Severity.info.emit goSprintf 0 "" []
        (zlWrapper.SetOutput 0 (some (Writer.buffer 1))
          (InitGlobalLogger "svc" "info" (processStart none 1700000000)).2).2).2.written
      (Writer.buffer 1)) =
      [[("l", Value.str "info"), ("a", Value.str "svc"), ("t", Value.int 1700000000)]] ∧
    keys [("l", Value.str "info"), ("a", Value.str "svc"), ("t", Value.int 1700000000)] =
      ["l", "a", "t"] := by
  decide

/-- C2 (amended).  From a world in which `initOnce` has not run and the flag
`debug` is undefined or false: after `InitGlobalLogger(appName, L)` with a level
string `L` that `ParseLevel` accepts, an emit method (`Debug`, `Info`, `Warn`,
`Error`) whose level is below the level of `L` returns normally and leaves the
whole world as it was, so no sink receives a record; the same holds after the
output of the global logger has been redirected with `SetOutput`. -/
theorem emit_below_level_is_silent (Sprintf : String → List Value → String) (s : World)
    (appName level : String) (lv : zerolog.Level) (E : Severity) (writer : Option Writer)
    (format : String) (args : List Value)
    (h0 : s.initOnce = false) (hf : boolFlag s.debugFlag = true)
    (hd : debugOn s.debugFlag = false)
    (hL : zerolog.ParseLevel level = some lv) (hlt : E.level < lv) :
    E.emit Sprintf s.heap.length format args (InitGlobalLogger appName level s).2 =
      (Except.ok (), (InitGlobalLogger appName level s).2) ∧
    E.emit Sprintf s.heap.length format args
        (zlWrapper.SetOutput s.heap.length writer (InitGlobalLogger appName level s).2).2 =
      (Except.ok (),
        (zlWrapper.SetOutput s.heap.length writer (InitGlobalLogger appName level s).2).2) := by
  rw [init_fresh appName level s h0 hf]
  simp only [setOutput_live _ _ _ _ (deref_initialized appName level s)]
  constructor
  · rw [emit_live Sprintf _ s.heap.length (zlWrapper.mk appName (globalZl appName)) E format
      args (deref_initialized appName level s)]
    have : zerolog.Logger.should (initialized appName level s) (globalZl appName) E.level
        = false := by
      simp [zerolog.Logger.should, initialized, effectiveLevel, hd, hL, hlt]
    simp [this]
  · rw [emit_live Sprintf _ s.heap.length
      (zlWrapper.mk appName ((globalZl appName).Output writer)) E format args
      (by simp [World.deref, initialized])]
    have : zerolog.Logger.should
        { initialized appName level s with
          heap := (initialized appName level s).heap.set s.heap.length
            (zlWrapper.mk appName ((globalZl appName).Output writer)),
          stdlogFlags := 0, stdlogOutput := some ((globalZl appName).Output writer) }
        ((globalZl appName).Output writer) E.level = false := by
      simp [zerolog.Logger.should, initialized, effectiveLevel, hd, hL, hlt]
    simp [this]

/-- C2 (witness): the theorem at `InitGlobalLogger("svc", "error")` and `Info`
in a fresh process without the flag. -/
theorem emit_below_level_is_silent_witness :
    (processStart none 1700000000).initOnce = false ∧
    boolFlag (processStart none 1700000000).debugFlag = true ∧
    debugOn (processStart none 1700000000).debugFlag = false ∧
    zerolog.ParseLevel "error" = some zerolog.ErrorLevel ∧
    Severity.info.level < zerolog.ErrorLevel ∧
    Severity.info.emit goSprintf 0 "x" []
        (zlWrapper.SetOutput 0 (some (Writer.buffer 1))
          (InitGlobalLogger "svc" "error" (processStart none 1700000000)).2).2 =
      (Except.ok (),
        (zlWrapper.SetOutput 0 (some (Writer.buffer 1))
          (InitGlobalLogger "svc" "error" (processStart none 1700000000)).2).2) :=
  ⟨rfl, rfl, rfl, by decide, by decide,
    (emit_below_level_is_silent goSprintf (processStart none 1700000000) "svc" "error"
      zerolog.ErrorLevel Severity.info (some (Writer.buffer 1)) "x" [] rfl rfl rfl
      (by decide) (by decide)).2⟩

/-- C2 (counterexample): with the flag `debug` defined and true,
`InitGlobalLogger("svc", "error")` sets the global level to debug, and `Info`,
a level below error, writes a record to the sink. -/
theorem debug_flag_lets_info_through :
    ((Severity.info.emit goSprintf 0 "x" []
        (zlWrapper.SetOutput 0 (some (Writer.buffer 1))
          (InitGlobalLogger "svc" "error"
            (processStart (some (FlagValue.getter (Value.bool true))) 1700000000)).2).2).2.written
      (Writer.buffer 1)) =
      [[("l", Value.str "info"), ("a", Value.str "svc"), ("t", Value.int 1700000000),
        ("m", Value.str "x")]] := by
  decide

/-- C3 (amended).  For a live binding `p` and an even-length key-value sequence
`kv` whose keys are strings, `p.With(kv...)` returns a new binding `c` whose
zerolog logger is the logger of `p` with the map of `kv` appended to its
context: each key of `kv` occurs once in the map, with the value of its last
occurrence in `kv`, and nothing else is in it.  For every emit method (`Debug`,
`Info`, `Warn`, `Error`, `Panic`, `Fatal`) `c` returns or faults as `p` does and
writes a record exactly when `p` does, to the same sink.  The record of `p` is
level, context of `p`, timestamps, message; the record of `c` is level, context
of `p`, the pairs of `kv`, timestamps, message: the pairs stand after the
fields of `p` and before the timestamp and the message, and no other member is
added.  Decoded as a JSON object, a key other than the timestamp key and the
message key has the value `kv` gives it, or else the value it has in the record
of `p`; a key the timestamp or the message is written under has in both records
the value written last under it, so a pair of `kv` with that key does not
override it: a non-empty message stays under the message key and the timestamp
under the timestamp key. -/
theorem with_adds_fields (Sprintf : String → List Value → String) (s : World) (p : Ptr)
    (w : zlWrapper) (kv : List Value)
    (hp : s.deref p = some w) (hlen : kv.length % 2 = 0) (hk : stringKeys kv = true) :
    ∃ fields,
      toFields kv = Except.ok fields ∧
      sortedMap fields ∧ (∀ k, fields.lookup k = lastValue kv k) ∧
      zlWrapper.With p kv s =
        (Except.ok s.heap.length,
          { s with heap := s.heap ++ [zlWrapper.mk "" (zerolog.Logger.mk w.logger.w
            w.logger.level w.logger.hooks (w.logger.context ++ fields))] }) ∧
      ∀ (M : EmitMethod) (format : String) (args : List Value),
        (M.call Sprintf s.heap.length format args (zlWrapper.With p kv s).2).1 =
          (M.call Sprintf p format args s).1 ∧
        newRecords s (M.call Sprintf p format args s) =
          (if w.logger.should s M.level = true ∧ w.logger.w ≠ Writer.discard then
            [(w.logger.w, levelMember s M.level ++ w.logger.context
              ++ closingMembers s w.logger (Sprintf format args))] else []) ∧
        newRecords (zlWrapper.With p kv s).2
            (M.call Sprintf s.heap.length format args (zlWrapper.With p kv s).2) =
          (if w.logger.should s M.level = true ∧ w.logger.w ≠ Writer.discard then
            [(w.logger.w, levelMember s M.level ++ w.logger.context ++ fields
              ++ closingMembers s w.logger (Sprintf format args))] else []) ∧
        (∀ k, k ≠ s.TimestampFieldName → k ≠ s.MessageFieldName →
          jsonGet (levelMember s M.level ++ w.logger.context ++ fields
              ++ closingMembers s w.logger (Sprintf format args)) k =
            (lastValue kv k).or (jsonGet (levelMember s M.level ++ w.logger.context
              ++ closingMembers s w.logger (Sprintf format args)) k)) ∧
        (∀ k, (∃ x ∈ closingMembers s w.logger (Sprintf format args), x.1 = k) →
          jsonGet (levelMember s M.level ++ w.logger.context ++ fields
              ++ closingMembers s w.logger (Sprintf format args)) k =
            jsonGet (levelMember s M.level ++ w.logger.context
              ++ closingMembers s w.logger (Sprintf format args)) k) ∧
        (Sprintf format args ≠ "" →
          jsonGet (levelMember s M.level ++ w.logger.context ++ fields
              ++ closingMembers s w.logger (Sprintf format args)) s.MessageFieldName =
            some (Value.str (Sprintf format args))) ∧
        (w.logger.hooks ≠ [] →
          (Sprintf format args = "" ∨ s.TimestampFieldName ≠ s.MessageFieldName) →
          jsonGet (levelMember s M.level ++ w.logger.context ++ fields
              ++ closingMembers s w.logger (Sprintf format args)) s.TimestampFieldName =
            some (zerolog.timeValue s.TimeFieldFormat s.clock)) := by
  obtain ⟨fields, hf, hs, hl⟩ := toFields_ok kv hlen hk
  have hwith := with_live s p w kv fields hp hf
  refine ⟨fields, hf, hs, hl, hwith, ?_⟩
  intro M format args
  have hkeys := closingMembers_keys s w.logger (Sprintf format args)
  rw [hwith]
  rw [call_live Sprintf s p w M format args hp]
  rw [call_live Sprintf _ s.heap.length (forkOf w fields) M format args
    (by simp [World.deref])]
  have hchild : recordOf { s with heap := s.heap ++ [forkOf w fields] } (forkOf w fields).logger
      M.level (Sprintf format args) =
      levelMember s M.level ++ w.logger.context ++ fields
        ++ closingMembers s w.logger (Sprintf format args) := by
    rw [recordOf_members]
    simp [forkOf, levelMember, closingMembers, List.append_assoc]
  have hsh : zerolog.Logger.should { s with heap := s.heap ++ [forkOf w fields] }
      (forkOf w fields).logger M.level = w.logger.should s M.level := by
    simp [zerolog.Logger.should, forkOf]
  have hw : (forkOf w fields).logger.w = w.logger.w := rfl
  rw [hsh, hchild, hw, recordOf_members]
  refine ⟨?_, ?_, ?_, ?_, ?_, ?_, ?_⟩
  · by_cases hen : w.logger.should s M.level = true <;> simp [hen]
  · by_cases hen : w.logger.should s M.level = true
    · by_cases hd : w.logger.w = Writer.discard <;> simp [hen, hd, newRecords_write]
    · simp [hen, newRecords_self]
  · by_cases hen : w.logger.should s M.level = true
    · by_cases hd : w.logger.w = Writer.discard <;> simp [hen, hd, newRecords_write]
    · simp [hen, newRecords_self]
  · intro k ht hm
    have hnone : jsonGet (closingMembers s w.logger (Sprintf format args)) k = none := by
      apply jsonGet_absent
      intro x hx hxk
      rcases hkeys x hx with h | h
      · exact ht (hxk ▸ h)
      · exact hm (hxk ▸ h)
    simp only [jsonGet_append, hnone, Option.none_or, jsonGet_sorted fields k hs, hl]
  · intro k hk1
    rw [jsonGet_present _ _ k hk1, jsonGet_present _ _ k hk1]
  · intro hm
    rw [jsonGet_present _ _ _ ⟨(s.MessageFieldName, Value.str (Sprintf format args)),
      by simp [closingMembers, hm], rfl⟩]
    exact jsonGet_message s w.logger _ hm
  · intro hh hm
    rw [jsonGet_present _ _ _ ⟨(s.TimestampFieldName,
      zerolog.timeValue s.TimeFieldFormat s.clock), by
        have hpos : 0 < w.logger.hooks.length := List.length_pos.mpr hh
        simp [closingMembers, Nat.ne_of_gt hpos], rfl⟩]
    exact jsonGet_timestamp s w.logger _ hh hm

/-- C3 (witness): the theorem at the global logger of the tests and
`With("key1", "value1")`: the record `Info("test message %s %d", "hello", 7)`
writes through the fork has `key1` after `a` and before `t` and `m`. -/
theorem with_adds_fields_witness :
    (testWorld "testWithApp" "info" none).deref 0 =
      some (zlWrapper.mk "testWithApp" (zerolog.Logger.mk (Writer.buffer 1) zerolog.TraceLevel
        [zerolog.Hook.timestampHook] [("a", Value.str "testWithApp")])) ∧
    [Value.str "key1", Value.str "value1"].length % 2 = 0 ∧
    stringKeys [Value.str "key1", Value.str "value1"] = true ∧
    newRecords
        (zlWrapper.With 0 [Value.str "key1", Value.str "value1"]
          (testWorld "testWithApp" "info" none)).2
        (EmitMethod.info.call goSprintf 1 "test message %s %d"
          [Value.str "hello", Value.int 7]
          (zlWrapper.With 0 [Value.str "key1", Value.str "value1"]
            (testWorld "testWithApp" "info" none)).2) =
      [(Writer.buffer 1,
        [("l", Value.str "info"), ("a", Value.str "testWithApp"),
          ("key1", Value.str "value1"), ("t", Value.int 1700000000),
          ("m", Value.str "test message hello 7")])] := by
  obtain ⟨fields, hf, _, _, _, hall⟩ :=
    with_adds_fields goSprintf (testWorld "testWithApp" "info" none) 0
      (zlWrapper.mk "testWithApp" (zerolog.Logger.mk (Writer.buffer 1) zerolog.TraceLevel
        [zerolog.Hook.timestampHook] [("a", Value.str "testWithApp")]))
      [Value.str "key1", Value.str "value1"] (by decide) (by decide) (by decide)
  have hfields : fields = [("key1", Value.str "value1")] := by
    have h1 : toFields [Value.str "key1", Value.str "value1"] =
        Except.ok [("key1", Value.str "value1")] := rfl
    rw [h1] at hf
    injection hf with h
    exact h.symm
  subst hfields
  refine ⟨by decide, by decide, by decide, ?_⟩
  exact (hall EmitMethod.info "test message %s %d"
    [Value.str "hello", Value.int 7]).2.2.1.trans (by decide)

/-- C3 (counterexample): the global logger of `InitGlobalLogger("svc", "info")`
forked with `With("t", "x", "m", "y")`.  The record `Info("hello")` writes
through the fork holds the pairs `m: y` and `t: x` and, after them, the
timestamp under `t` and the message under `m`: the pairs do not override the
fields `t` and `m`, and decoded as a JSON object the keys `t` and `m` have the
timestamp and the message, not the values `kv` gives them. -/
theorem with_does_not_override_timestamp_or_message :
    ((zlWrapper.Info goSprintf 1 "hello" []
        (zlWrapper.With 0 [Value.str "t", Value.str "x", Value.str "m", Value.str "y"]
          (testWorld "svc" "info" none)).2).2.written (Writer.buffer 1)) =
      [[("l", Value.str "info"), ("a", Value.str "svc"), ("m", Value.str "y"),
        ("t", Value.str "x"), ("t", Value.int 1700000000), ("m", Value.str "hello")]] ∧
    jsonGet [("l", Value.str "info"), ("a", Value.str "svc"), ("m", Value.str "y"),
        ("t", Value.str "x"), ("t", Value.int 1700000000), ("m", Value.str "hello")] "t" =
      some (Value.int 1700000000) ∧
    jsonGet [("l", Value.str "info"), ("a", Value.str "svc"), ("m", Value.str "y"),
        ("t", Value.str "x"), ("t", Value.int 1700000000), ("m", Value.str "hello")] "m" =
      some (Value.str "hello") ∧
    lastValue [Value.str "t", Value.str "x", Value.str "m", Value.str "y"] "t" =
      some (Value.str "x") ∧
    lastValue [Value.str "t", Value.str "x", Value.str "m", Value.str "y"] "m" =
      some (Value.str "y") := by
  decide

/-- C4 (amended).  `With` does not modify the logger it is called on.  For a
live binding `p`, in the world after `p.With(kv...)` and in the world after the
chained `p.With(kv...).With(kv2...)`, `p` is the wrapper it was, and an emit
call on `p` returns what it returned and writes the records it wrote before the
fork: the same fields, none added from `kv`.  For the global logger right after
`InitGlobalLogger(appName, L)` and `SetOutput(buf)` that record has `l`, `a`,
`t` and, only when the formatted message is not empty, `m`. -/
theorem with_leaves_receiver (Sprintf : String → List Value → String) (s : World) (p : Ptr)
    (w : zlWrapper) (kv kv2 : List Value) (L : Severity) (format : String)
    (args : List Value) (hp : s.deref p = some w) :
    ∀ s1, (s1 = (zlWrapper.With p kv s).2 ∨
        ∃ c, (zlWrapper.With p kv s).1 = Except.ok c ∧
          s1 = (zlWrapper.With c kv2 (zlWrapper.With p kv s).2).2) →
      s1.deref p = some w ∧
      (L.emit Sprintf p format args s1).1 = (L.emit Sprintf p format args s).1 ∧
      newRecords s1 (L.emit Sprintf p format args s1) =
        newRecords s (L.emit Sprintf p format args s) ∧
      ∀ (s0 : World) (appName : String) (id : Nat),
        s0.initOnce = false → boolFlag s0.debugFlag = true → p = s0.heap.length →
        s = (zlWrapper.SetOutput s0.heap.length (some (Writer.buffer id))
          (InitGlobalLogger appName L.name s0).2).2 →
        newRecords s1 (L.emit Sprintf p format args s1) =
          [(Writer.buffer id,
            [("l", Value.str L.name), ("a", Value.str appName), ("t", Value.int s0.clock)]
              ++ if Sprintf format args = "" then [] else
                [("m", Value.str (Sprintf format args))])] := by
  intro s1 hs1
  have hext : ∃ extra, s1 = { s with heap := s.heap ++ extra } := by
    obtain ⟨e1, he1⟩ := with_heap_ext p kv s
    rcases hs1 with h | ⟨c, _, h⟩
    · exact ⟨e1, h.trans he1⟩
    · obtain ⟨e2, he2⟩ := with_heap_ext c kv2 (zlWrapper.With p kv s).2
      refine ⟨e1 ++ e2, ?_⟩
      rw [h, he2, he1]
      simp [List.append_assoc]
  obtain ⟨extra, rfl⟩ := hext
  obtain ⟨h1, h2, h3⟩ := emit_heap_ext Sprintf s p w extra L format args hp
  refine ⟨h1, h2, h3, ?_⟩
  intro s0 appName id h0 hf hpg hs
  rw [h3, hpg, hs, global_emit Sprintf s0 appName L id format args h0 hf]
  simp [newRecords, global_output s0 appName L.name (some (Writer.buffer id)) h0 hf]

/-- C4 (witness): the theorem at the global logger of the tests forked with
`With("key1", "value1")` and then `With("key2", "value2")`. -/
theorem with_leaves_receiver_witness :
    (testWorld "testWithApp" "info" none).deref 0 =
      some (zlWrapper.mk "testWithApp" (zerolog.Logger.mk (Writer.buffer 1) zerolog.TraceLevel
        [zerolog.Hook.timestampHook] [("a", Value.str "testWithApp")])) ∧
    newRecords
        (zlWrapper.With 1 [Value.str "key2", Value.str "value2"]
          (zlWrapper.With 0 [Value.str "key1", Value.str "value1"]
            (testWorld "testWithApp" "info" none)).2).2
        (Severity.info.emit goSprintf 0 "test message %s %d" [Value.str "hello", Value.int 7]
          (zlWrapper.With 1 [Value.str "key2", Value.str "value2"]
            (zlWrapper.With 0 [Value.str "key1", Value.str "value1"]
              (testWorld "testWithApp" "info" none)).2).2) =
      newRecords (testWorld "testWithApp" "info" none)
        (Severity.info.emit goSprintf 0 "test message %s %d" [Value.str "hello", Value.int 7]
          (testWorld "testWithApp" "info" none)) :=
  ⟨by decide,
    (with_leaves_receiver goSprintf (testWorld "testWithApp" "info" none) 0
      (zlWrapper.mk "testWithApp" (zerolog.Logger.mk (Writer.buffer 1) zerolog.TraceLevel
        [zerolog.Hook.timestampHook] [("a", Value.str "testWithApp")]))
      [Value.str "key1", Value.str "value1"] [Value.str "key2", Value.str "value2"]
      Severity.info "test message %s %d" [Value.str "hello", Value.int 7] (by decide)
      _ (Or.inr ⟨1, rfl, rfl⟩)).2.2.1⟩

/-- C4 (counterexample): the global logger of `InitGlobalLogger("svc", "info")`
after `With("k", "v")`.  Its record for `Info("")` has the three keys `l`, `a`
and `t`, not the four keys `l`, `m`, `t`, `a`. -/
theorem global_record_after_with_lacks_m :
    newRecords (zlWrapper.With 0 [Value.str "k", Value.str "v"] (testWorld "svc" "info" none)).2
        (zlWrapper.Info goSprintf 0 "" []
          (zlWrapper.With 0 [Value.str "k", Value.str "v"] (testWorld "svc" "info" none)).2) =
      [(Writer.buffer 1,
        [("l", Value.str "info"), ("a", Value.str "svc"), ("t", Value.int 1700000000)])] := by
  decide

/-- C5.  For an odd-length key-value sequence `kv`, `toFields(kv)` is the empty
map and `p.With(kv...)` is `p.With()`: the same result in the same world.  On a
live binding `p` it returns, without a fault, a new binding that holds the
zerolog logger of `p` itself, so it writes for every emit call exactly the
records `p` writes. -/
theorem with_odd_is_with_nothing (Sprintf : String → List Value → String) (s : World)
    (p : Ptr) (kv : List Value) (hodd : kv.length % 2 = 1) :
    toFields kv = Except.ok [] ∧
    zlWrapper.With p kv s = zlWrapper.With p [] s ∧
    ∀ w, s.deref p = some w →
      zlWrapper.With p kv s =
        (Except.ok s.heap.length, { s with heap := s.heap ++ [zlWrapper.mk "" w.logger] }) ∧
      ∀ (L : Severity) (format : String) (args : List Value),
        (L.emit Sprintf s.heap.length format args (zlWrapper.With p kv s).2).1 =
          (L.emit Sprintf p format args s).1 ∧
        newRecords (zlWrapper.With p kv s).2
            (L.emit Sprintf s.heap.length format args (zlWrapper.With p kv s).2) =
          newRecords s (L.emit Sprintf p format args s) := by
  have hf : toFields kv = Except.ok [] := by simp [toFields, hodd]
  have hnil : toFields [] = Except.ok [] := rfl
  refine ⟨hf, by simp only [zlWrapper.With, hf, hnil], ?_⟩
  intro w hp
  have hw : zlWrapper.With p kv s =
      (Except.ok s.heap.length, { s with heap := s.heap ++ [zlWrapper.mk "" w.logger] }) := by
    rw [with_live s p w kv [] hp hf]
    simp [forkOf]
  refine ⟨hw, ?_⟩
  intro L format args
  rw [hw]
  have hc : ({ s with heap := s.heap ++ [zlWrapper.mk "" w.logger] } : World).deref
      s.heap.length = some (zlWrapper.mk "" w.logger) := by
    simp [World.deref]
  have hsh : zerolog.Logger.should { s with heap := s.heap ++ [zlWrapper.mk "" w.logger] }
      w.logger L.level = w.logger.should s L.level := by
    simp [zerolog.Logger.should]
  rw [emit_live Sprintf _ s.heap.length _ L format args hc,
    emit_live Sprintf s p w L format args hp]
  simp only [hsh]
  by_cases hen : w.logger.should s L.level = true
  · simp only [hen, if_true, newRecords_write]
    exact ⟨trivial, rfl⟩
  · simp only [hen, Bool.false_eq_true, if_false, newRecords_self]
    exact ⟨trivial, trivial⟩

/-- C5 (witness): the theorem at the global logger of the tests and
`With("key1")`. -/
theorem with_odd_is_with_nothing_witness :
    [Value.str "key1"].length % 2 = 1 ∧
    zlWrapper.With 0 [Value.str "key1"] (testWorld "svc" "info" none) =
      zlWrapper.With 0 [] (testWorld "svc" "info" none) :=
  ⟨by decide,
    (with_odd_is_with_nothing goSprintf (testWorld "svc" "info" none) 0 [Value.str "key1"]
      (by decide)).2.1⟩

/-- C6 (the code at the failing input).  `With(1, "v")` on the global logger:
the key `1` is not a string, the type assertion `keyValues[i].(string)` in
`toFields` panics, and `With` ends with that fault instead of returning a
binding. -/
theorem with_non_string_key_panics :
    toFields [Value.int 1, Value.str "v"] = Except.error Fault.typeAssertion ∧
    zlWrapper.With 0 [Value.int 1, Value.str "v"] (testWorld "svc" "info" none) =
      (Except.error Fault.typeAssertion, testWorld "svc" "info" none) := by
  exact ⟨rfl, rfl⟩

/-- C7 (amended).  `Panic` on a live binding always ends in a recoverable fault.
When neither the global level nor the level of the logger is above panic, it
first writes one panic-level record to the sink of the binding (level, context,
timestamp, and the formatted message unless that is empty) and the fault
carries the formatted message.  When the level in force is above panic (the
levels `NoLevel` and `Disabled`, which the level strings "" and "disabled"
select), no record is written, the world is unchanged, and the fault carries
the empty string. -/
theorem panic_record_and_fault (Sprintf : String → List Value → String) (s : World)
    (p : Ptr) (w : zlWrapper) (format : String) (args : List Value)
    (hp : s.deref p = some w) :
    (∃ msg, (zlWrapper.Panic Sprintf p format args s).1 = Except.error (Fault.panicMsg msg)) ∧
    (w.logger.level ≤ zerolog.PanicLevel → s.gLevel ≤ zerolog.PanicLevel →
      zlWrapper.Panic Sprintf p format args s =
        (Except.error (Fault.panicMsg (Sprintf format args)),
          s.write w.logger.w
            (recordOf s w.logger zerolog.PanicLevel (Sprintf format args))) ∧
      (s.LevelFieldName ≠ "" →
        (recordOf s w.logger zerolog.PanicLevel (Sprintf format args)).head? =
          some (s.LevelFieldName, Value.str "panic")) ∧
      (Sprintf format args ≠ "" →
        (recordOf s w.logger zerolog.PanicLevel (Sprintf format args)).getLast? =
          some (s.MessageFieldName, Value.str (Sprintf format args)))) ∧
    (zerolog.PanicLevel < w.logger.level ∨ zerolog.PanicLevel < s.gLevel →
      zlWrapper.Panic Sprintf p format args s = (Except.error (Fault.panicMsg ""), s)) := by
  rw [panic_live Sprintf s p w format args hp]
  refine ⟨?_, ?_, ?_⟩
  · by_cases hen : w.logger.should s zerolog.PanicLevel = true
    · exact ⟨Sprintf format args, by simp [hen]⟩
    · exact ⟨"", by simp [hen]⟩
  · intro h1 h2
    have hen : w.logger.should s zerolog.PanicLevel = true := by
      simp [zerolog.Logger.should, not_lt.mpr h1, not_lt.mpr h2]
    refine ⟨by simp [hen], ?_, ?_⟩
    · intro hl
      have hne : zerolog.PanicLevel ≠ zerolog.NoLevel := by decide
      have hstr : zerolog.Level.String zerolog.PanicLevel = "panic" := by decide
      simp [recordOf, hl, hne, hstr]
    · intro hm
      simp [recordOf, hm, ← List.append_assoc]
  · intro h
    have hen : w.logger.should s zerolog.PanicLevel = false := by
      simp only [zerolog.Logger.should]
      rcases h with h | h <;> simp [h]
    simp [hen]

/-- C7 (witness): the theorem at the global logger of the tests, created with
`InitGlobalLogger("testPanicApp", "panic")`. -/
theorem panic_record_and_fault_witness :
    (testWorld "testPanicApp" "panic" none).deref 0 =
      some (zlWrapper.mk "testPanicApp" (zerolog.Logger.mk (Writer.buffer 1)
        zerolog.TraceLevel [zerolog.Hook.timestampHook] [("a", Value.str "testPanicApp")])) ∧
    (zlWrapper.Panic goSprintf 0 "test message %s %d" [Value.str "hello", Value.int 7]
      (testWorld "testPanicApp" "panic" none)).1 =
        Except.error (Fault.panicMsg "test message hello 7") ∧
    (zlWrapper.Panic goSprintf 0 "test message %s %d" [Value.str "hello", Value.int 7]
      (testWorld "testPanicApp" "panic" none)).2.written (Writer.buffer 1) =
        [[("l", Value.str "panic"), ("a", Value.str "testPanicApp"),
          ("t", Value.int 1700000000), ("m", Value.str "test message hello 7")]] := by
  have h := ((panic_record_and_fault goSprintf (testWorld "testPanicApp" "panic" none) 0
      (zlWrapper.mk "testPanicApp" (zerolog.Logger.mk (Writer.buffer 1)
        zerolog.TraceLevel [zerolog.Hook.timestampHook] [("a", Value.str "testPanicApp")]))
      "test message %s %d" [Value.str "hello", Value.int 7] (by decide)).2.1
      (by decide) (by decide)).1
  refine ⟨by decide, ?_, ?_⟩
  · rw [h]
    rfl
  · rw [h]
    decide

/-- C7 (counterexample): after `InitGlobalLogger("svc", "disabled")` and
`SetOutput(buf)`, `Panic("boom")` writes nothing to the sink, leaves the world
as it was, and raises a fault that carries the empty string, not `boom`. -/
theorem panic_suppressed_when_disabled :
    zlWrapper.Panic goSprintf 0 "boom" [] (testWorld "svc" "disabled" none) =
      (Except.error (Fault.panicMsg ""), testWorld "svc" "disabled" none) ∧
    (testWorld "svc" "disabled" none).written (Writer.buffer 1) = [] := by
  exact ⟨rfl, rfl⟩

/-- C8.  For a live binding `p`, a child `c = p.With(kv...)` and a writer: `c`
is a binding other than `p` that starts on the sink `p` has at fork time.
`c.SetOutput(writer)` leaves the wrapper of `p` as it was, so `p` writes for
every emit call the records it wrote before, to the sink it had before;
`p.SetOutput(writer)` after the fork leaves the wrapper of `c` as it was, so
`c` keeps writing to the sink `p` had at fork time. -/
theorem setOutput_independent (Sprintf : String → List Value → String) (s s1 : World)
    (p c : Ptr) (w : zlWrapper) (kv : List Value) (writer : Option Writer)
    (hp : s.deref p = some w) (hw : zlWrapper.With p kv s = (Except.ok c, s1)) :
    ∃ wc, s1.deref c = some wc ∧ wc.logger.w = w.logger.w ∧ s1.deref p = some w ∧ c ≠ p ∧
      (zlWrapper.SetOutput c writer s1).2.deref p = some w ∧
      (∀ (L : Severity) (format : String) (args : List Value),
        newRecords (zlWrapper.SetOutput c writer s1).2
            (L.emit Sprintf p format args (zlWrapper.SetOutput c writer s1).2) =
          newRecords s (L.emit Sprintf p format args s)) ∧
      (zlWrapper.SetOutput p writer s1).2.deref c = some wc ∧
      (∀ (L : Severity) (format : String) (args : List Value),
        newRecords (zlWrapper.SetOutput p writer s1).2
            (L.emit Sprintf c format args (zlWrapper.SetOutput p writer s1).2) =
          newRecords s1 (L.emit Sprintf c format args s1)) := by
  have hlt := deref_lt s p w hp
  cases hf : toFields kv with
  | error f =>
    simp [zlWrapper.With, hp, hf] at hw
  | ok fields =>
    rw [with_live s p w kv fields hp hf] at hw
    simp only [Prod.mk.injEq, Except.ok.injEq] at hw
    obtain ⟨hc, hs1⟩ := hw
    subst hc
    subst hs1
    have hne : s.heap.length ≠ p := Nat.ne_of_gt hlt
    have hc1 : ({ s with heap := s.heap ++ [forkOf w fields] } : World).deref s.heap.length =
        some (forkOf w fields) := by
      simp [World.deref]
    have hp1 : ({ s with heap := s.heap ++ [forkOf w fields] } : World).deref p = some w := by
      simp only [World.deref] at hp ⊢
      rw [List.getElem?_append_left hlt]
      exact hp
    have hp2 : (zlWrapper.SetOutput s.heap.length writer
        { s with heap := s.heap ++ [forkOf w fields] }).2.deref p = some w := by
      rw [setOutput_live _ _ _ _ hc1]
      simp only [World.deref] at hp1 ⊢
      rw [List.getElem?_set_ne hne]
      exact hp1
    have hc2 : (zlWrapper.SetOutput p writer
        { s with heap := s.heap ++ [forkOf w fields] }).2.deref s.heap.length =
        some (forkOf w fields) := by
      rw [setOutput_live _ _ _ _ hp1]
      simp only [World.deref] at hc1 ⊢
      rw [List.getElem?_set_ne (Ne.symm hne)]
      exact hc1
    refine ⟨forkOf w fields, hc1, rfl, hp1, hne, hp2, ?_, hc2, ?_⟩
    · intro L format args
      refine (emit_agree Sprintf s _ p w L format args hp hp2 ?_ ?_ ?_ ?_ ?_ ?_).2 <;>
        rw [setOutput_live _ _ _ _ hc1]
    · intro L format args
      refine (emit_agree Sprintf _ _ s.heap.length (forkOf w fields) L format args hc1 hc2
        ?_ ?_ ?_ ?_ ?_ ?_).2 <;> rw [setOutput_live _ _ _ _ hp1]

/-- C8 (witness): the theorem at the global logger of the tests, its child
`With("key1", "value1")` and the writer buffer 2. -/
theorem setOutput_independent_witness :
    (testWorld "svc" "info" none).deref 0 =
      some (zlWrapper.mk "svc" (zerolog.Logger.mk (Writer.buffer 1) zerolog.TraceLevel
        [zerolog.Hook.timestampHook] [("a", Value.str "svc")])) ∧
    (zlWrapper.With 0 [Value.str "key1", Value.str "value1"] (testWorld "svc" "info" none)).1 =
      Except.ok 1 ∧
    ∃ wc,
      (zlWrapper.With 0 [Value.str "key1", Value.str "value1"]
        (testWorld "svc" "info" none)).2.deref 1 = some wc ∧
      wc.logger.w = Writer.buffer 1 ∧
      (zlWrapper.SetOutput 1 (some (Writer.buffer 2))
        (zlWrapper.With 0 [Value.str "key1", Value.str "value1"]
          (testWorld "svc" "info" none)).2).2.deref 0 =
        some (zlWrapper.mk "svc" (zerolog.Logger.mk (Writer.buffer 1) zerolog.TraceLevel
          [zerolog.Hook.timestampHook] [("a", Value.str "svc")])) ∧
      (zlWrapper.SetOutput 0 (some (Writer.buffer 2))
        (zlWrapper.With 0 [Value.str "key1", Value.str "value1"]
          (testWorld "svc" "info" none)).2).2.deref 1 = some wc := by
  obtain ⟨wc, h1, h2, _, _, h5, _, h7, _⟩ :=
    setOutput_independent goSprintf (testWorld "svc" "info" none)
      (zlWrapper.With 0 [Value.str "key1", Value.str "value1"] (testWorld "svc" "info" none)).2
      0 1
      (zlWrapper.mk "svc" (zerolog.Logger.mk (Writer.buffer 1) zerolog.TraceLevel
        [zerolog.Hook.timestampHook] [("a", Value.str "svc")]))
      [Value.str "key1", Value.str "value1"] (some (Writer.buffer 2)) (by decide) rfl
  exact ⟨by decide, rfl, wc, h1, h2, h5, h7⟩

/-- C9.  `InitGlobalLogger` is idempotent: from any world, a second call, with
whatever arguments, returns normally and leaves the world exactly as the first
call left it: the global binding, its `appName`, the global level and
everything else. -/
theorem init_twice (appName1 level1 appName2 level2 : String) (s : World) :
    InitGlobalLogger appName2 level2 (InitGlobalLogger appName1 level1 s).2 =
      (Except.ok (), (InitGlobalLogger appName1 level1 s).2) := by
  have h := init_done appName1 level1 s
  generalize (InitGlobalLogger appName1 level1 s).2 = t at h ⊢
  simp [InitGlobalLogger, h]

/-- C10 (amended).  In the uninitialized state (`initOnce` has not run,
`globalLogger` is nil) with the flag `debug` undefined or boolean, `getLogger` leaves the world
exactly as `InitGlobalLogger("un-configured", "info")` does and returns the
binding that call created, which exists; and a first `Info` call returns
normally and writes to standard error one record with `l` equal to "info" and
`a` equal to "un-configured". -/
theorem getLogger_uninitialized (Sprintf : String → List Value → String) (s : World)
    (format : String) (args : List Value)
    (h0 : s.initOnce = false) (hg : s.globalLogger = none)
    (hf : boolFlag s.debugFlag = true) :
    InitGlobalLogger "un-configured" "info" s =
      (Except.ok (), initialized "un-configured" "info" s) ∧
    getLogger s = (Except.ok (some s.heap.length), initialized "un-configured" "info" s) ∧
    (initialized "un-configured" "info" s).deref s.heap.length =
      some (zlWrapper.mk "un-configured" (globalZl "un-configured")) ∧
    Info Sprintf format args s =
      (Except.ok (),
        { initialized "un-configured" "info" s with
          output := s.output ++ [(Writer.stderr,
            [("l", Value.str "info"), ("a", Value.str "un-configured"),
              ("t", Value.int s.clock)]
              ++ if Sprintf format args = "" then [] else
                [("m", Value.str (Sprintf format args))])] }) := by
  have hi := init_fresh "un-configured" "info" s h0 hf
  have hgl : getLogger s =
      (Except.ok (some s.heap.length), initialized "un-configured" "info" s) := by
    simp [getLogger, hg, hi, initialized]
  have hd := deref_initialized "un-configured" "info" s
  refine ⟨hi, hgl, hd, ?_⟩
  have hinfo : zlWrapper.Info Sprintf = Severity.info.emit Sprintf := rfl
  simp only [Info, onGlobal, hgl, hinfo]
  rw [emit_live Sprintf _ s.heap.length _ Severity.info format args hd]
  have hen : zerolog.Logger.should (initialized "un-configured" "info" s)
      (globalZl "un-configured") Severity.info.level = true := by
    cases h : debugOn s.debugFlag <;>
    simp [zerolog.Logger.should, initialized, globalZl, effectiveLevel, h, Severity.level] <;>
    decide
  simp only [hen, if_true]
  by_cases hm : Sprintf format args = "" <;>
  simp [World.write, recordOf, globalZl, initialized, hm, severity_string,
    severity_ne_noLevel, zerolog.timeValue, zerolog.TimeFormatUnix, Severity.name]

/-- C10 (witness): the theorem at a fresh process and `Info("x")`. -/
theorem getLogger_uninitialized_witness :
    (processStart none 1700000000).initOnce = false ∧
    (processStart none 1700000000).globalLogger = none ∧
    boolFlag (processStart none 1700000000).debugFlag = true ∧
    (Info goSprintf "x" [] (processStart none 1700000000)).2.written Writer.stderr =
      [[("l", Value.str "info"), ("a", Value.str "un-configured"),
        ("t", Value.int 1700000000), ("m", Value.str "x")]] := by
  have h := (getLogger_uninitialized goSprintf (processStart none 1700000000) "x" []
    rfl rfl rfl).2.2.2
  refine ⟨rfl, rfl, rfl, ?_⟩
  rw [h]
  decide

/-- C10 (counterexample): a fresh process in which the host has defined the
flag `debug` with `flag.String`.  `getLogger` ends in the fault of the type
assertion `.Get().(bool)` and returns no binding; `initOnce` is spent and
`globalLogger` is still nil.  The first `Info` call ends in the same fault and
writes no record, and a later `Info` call calls through the nil interface. -/
theorem getLogger_faults_on_string_debug_flag :
    getLogger (processStart (some (FlagValue.getter (Value.str ""))) 1700000000) =
      (Except.error Fault.typeAssertion,
        { processStart (some (FlagValue.getter (Value.str ""))) 1700000000 with
          initOnce := true }) ∧
    (getLogger (processStart (some (FlagValue.getter (Value.str ""))) 1700000000)).2.globalLogger
      = none ∧
    Info goSprintf "x" [] (processStart (some (FlagValue.getter (Value.str ""))) 1700000000) =
      (Except.error Fault.typeAssertion,
        { processStart (some (FlagValue.getter (Value.str ""))) 1700000000 with
          initOnce := true }) ∧
    Info goSprintf "x" []
        (Info goSprintf "x" []
          (processStart (some (FlagValue.getter (Value.str ""))) 1700000000)).2 =
      (Except.error Fault.nilDereference,
        { processStart (some (FlagValue.getter (Value.str ""))) 1700000000 with
          initOnce := true }) ∧
    (Info goSprintf "x" []
      (processStart (some (FlagValue.getter (Value.str ""))) 1700000000)).2.output = [] :=
  ⟨rfl, rfl, rfl, rfl, rfl⟩

/-- C11 (amended).  For every appName and every level string `s` that
`zerolog.ParseLevel` rejects, `InitGlobalLogger(appName, s)` is
`InitGlobalLogger(appName, "info")`: from every world the two calls return the
same result and leave the same world.  Such a string is none of the seven level
names of the specification.  From a world in which `initOnce` has not run and
the flag `debug` is undefined or boolean the call returns normally, creates the
global binding of `InitGlobalLogger(appName, "info")`, and sets the global
level to info, or to debug when the flag is on. -/
theorem rejected_level_is_info (appName s : String) (w : World)
    (h : zerolog.ParseLevel s = none) :
    InitGlobalLogger appName s w = InitGlobalLogger appName "info" w ∧
    specAcceptedLevel s = false ∧
    (w.initOnce = false → boolFlag w.debugFlag = true →
      InitGlobalLogger appName s w = (Except.ok (), initialized appName "info" w) ∧
      (initialized appName "info" w).gLevel =
        (if debugOn w.debugFlag = true then zerolog.DebugLevel else zerolog.InfoLevel)) := by
  have hinfo : zerolog.ParseLevel "info" = some zerolog.InfoLevel := by decide
  have heq : InitGlobalLogger appName s w = InitGlobalLogger appName "info" w := by
    simp only [InitGlobalLogger, h, hinfo]
  refine ⟨heq, ?_, ?_⟩
  · cases hs : specAcceptedLevel s with
    | false => rfl
    | true =>
      exfalso
      simp only [specAcceptedLevel, List.contains_iff_exists_mem_beq, List.mem_cons,
        List.mem_singleton, beq_iff_eq] at hs
      obtain ⟨x, hx, hsx⟩ := hs
      subst hsx
      simp only [List.not_mem_nil, or_false] at hx
      rcases hx with hx | hx | hx | hx | hx | hx | hx <;> subst hx <;>
        exact absurd h (by decide)
  · intro h0 hf
    refine ⟨heq.trans (init_fresh appName "info" w h0 hf), ?_⟩
    cases hd : debugOn w.debugFlag <;> simp [initialized, effectiveLevel, hd, hinfo]

/-- C11 (witness): the theorem at the level string `verbose` in a fresh
process. -/
theorem rejected_level_is_info_witness :
    zerolog.ParseLevel "verbose" = none ∧
    (processStart none 1700000000).initOnce = false ∧
    boolFlag (processStart none 1700000000).debugFlag = true ∧
    InitGlobalLogger "svc" "verbose" (processStart none 1700000000) =
      (Except.ok (), initialized "svc" "info" (processStart none 1700000000)) ∧
    (initialized "svc" "info" (processStart none 1700000000)).gLevel = zerolog.InfoLevel :=
  ⟨by decide, rfl, rfl,
    ((rejected_level_is_info "svc" "verbose" (processStart none 1700000000)
      (by decide)).2.2 rfl rfl).1,
    ((rejected_level_is_info "svc" "verbose" (processStart none 1700000000)
      (by decide)).2.2 rfl rfl).2⟩

/-- C11 (counterexample): the strings `disabled` and the empty string are not
among the level names of the specification, yet `ParseLevel` accepts them.
`InitGlobalLogger("svc", "disabled")` sets the global level to `Disabled`, and
`InitGlobalLogger("svc", "")` to `NoLevel`, where
`InitGlobalLogger("svc", "info")` sets `InfoLevel`; after the first an `Info`
call writes nothing, after the last it writes a record. -/
theorem disabled_level_is_not_info :
    specAcceptedLevel "disabled" = false ∧
    specAcceptedLevel "" = false ∧
    (InitGlobalLogger "svc" "disabled" (processStart none 1700000000)).2.gLevel =
      zerolog.Disabled ∧
    (InitGlobalLogger "svc" "" (processStart none 1700000000)).2.gLevel = zerolog.NoLevel ∧
    (InitGlobalLogger "svc" "info" (processStart none 1700000000)).2.gLevel =
      zerolog.InfoLevel ∧
    (zlWrapper.Info goSprintf 0 "x" [] (testWorld "svc" "disabled" none)).2.written
      (Writer.buffer 1) = [] ∧
    (zlWrapper.Info goSprintf 0 "x" [] (testWorld "svc" "info" none)).2.written
      (Writer.buffer 1) =
      [[("l", Value.str "info"), ("a", Value.str "svc"), ("t", Value.int 1700000000),
        ("m", Value.str "x")]] := by
  decide

end Log
